import Mathlib

/-!
# WiVRn server driver: the bounded sample history (`server/driver/history.h`)

A shallow embedding of `wivrn::history<Derived, Data, MaxSamples>` and of the part of
`clock_offset` (`server/driver/clock_offset.h`) that `history` uses.

Conventions of the embedding

* `XrTime` / `XrDuration` / `int64_t` values are embedded as `Int`.  The only arithmetic the
  class performs on them is signed `+`/`-`, whose overflow is undefined in C++; the embedding
  describes the executions in which every intermediate value is representable.
* `std::array<TimedData, MaxSamples> data` is a `List` of slots; `MaxSamples` is its length.
* a pointer into `data` (`target`, `before`, `after`) is the index of the slot and/or a copy
  of the slot it points at: no slot is written while such a pointer is live.
* the mutex only serialises the calls; each call is embedded as one atomic state transformer.
* `os_monotonic_get_ns()` is read from the environment and passed in as `now`.
* `clock_offset::from_headset` is declared in `clock_offset.h` but defined elsewhere; it is
  a parameter `from_headset` of the embedding.  The `double` drift `a` is only read by that
  function, its type is the parameter `Double`.
* `Derived::interpolate` and the `float` arithmetic computing its parameter `t` are parameters
  (`interpolate`, `toFloat`, `fdiv`).
-/

set_option autoImplicit false

namespace wivrn

/-! ## clock_offset.h -/

/-- The `struct clock_offset`: headset time `y` and server time `x` are related by `y = a x + b`. -/
structure clock_offset (Double : Type) where
  b : Int
  a : Double

/-- The `operator bool` of `clock_offset`: `return b != 0;`. -/
def clock_offset.toBool {Double : Type} (o : clock_offset Double) : Bool :=
  decide (o.b ≠ 0)

/-- The implicit conversion of an `XrTime` argument to the `uint64_t` parameter of
`from_headset`. -/
def toUInt64 (x : Int) : Nat :=
  (x % 18446744073709551616).toNat

/-! ## history.h: data model -/

/-- The `struct TimedData : public Data` with its two time stamps. -/
structure TimedData (Data : Type) where
  data : Data
  produced_timestamp : Int
  at_timestamp_ns : Int
deriving DecidableEq

/-- Value initialisation `TimedData{}` of a slot: `Data{}` and both time stamps zero. -/
instance {Data : Type} [Inhabited Data] : Inhabited (TimedData Data) :=
  ⟨⟨default, 0, 0⟩⟩

/-- The mutable members of `history`: the slot array and `last_request`. -/
structure history (Data : Type) where
  data : List (TimedData Data)
  last_request : Int
deriving DecidableEq

/-- The constructor `history(name)`: `data{}` is value initialised, `last_request` is the
current monotonic time. -/
def history.init {Data : Type} [Inhabited Data] (MaxSamples : Nat) (now : Int) : history Data :=
  { data := List.replicate MaxSamples default, last_request := now }

/-- Modelled from the spec: the macro `U_TIME_1S_IN_NS` of `util/u_time.h` (one second in
nanoseconds), which is not part of the sources at hand. -/
def U_TIME_1S_IN_NS : Int := 1000000000

/-- Modelled from the spec: the macro `U_TIME_1MS_IN_NS` of `util/u_time.h` (one millisecond in
nanoseconds), which is not part of the sources at hand. -/
def U_TIME_1MS_IN_NS : Int := 1000000

/-- The `std::abs` on `int64_t`. -/
def abs64 (x : Int) : Int :=
  if x < 0 then -x else x

/-! ## history.h: `add_sample` -/

/-- The `for (auto & item: data)` loop of `add_sample`, run on the slots `items` that are still
to be visited, the first of which has index `i`.  `target` is the index the pointer `target`
holds and `tat` is `target->at_timestamp_ns`.  The result is `none` when the loop leaves the
function through `return active` (reordered packet), and the final value of `target`
otherwise. -/
def add_sample_scan {Data : Type} (produced t : Int) :
    List (TimedData Data) → Nat → Nat → Int → Option Nat
  | [], _, target, _ => some target
  | item :: items, i, target, tat =>
    -- Discard reordered packets
    if item.produced_timestamp > produced then none
    else if abs64 (item.at_timestamp_ns - t) < 2000000 then some i
    else if item.at_timestamp_ns < tat then
      add_sample_scan produced t items (i + 1) i item.at_timestamp_ns
    else
      add_sample_scan produced t items (i + 1) target tat

/-- The slot `add_sample` writes: `target` starts at `data.data()` (index 0) and is moved by the
scan only `if (offset)`; `none` when the call returns without writing. -/
def add_sample_target {Data : Type} (calibrated : Bool) (produced t : Int)
    (data : List (TimedData Data)) : Option Nat :=
  if calibrated then
    match data with
    | [] => some 0
    | first :: _ => add_sample_scan produced t data 0 0 first.at_timestamp_ns
  else some 0

/-- The method `history::add_sample`: the returned flag `active` and the state after the call.
(With `MaxSamples = 0` the array has no slot to write; the embedding then leaves it empty.) -/
def add_sample {Data Double : Type} (from_headset : clock_offset Double → Nat → Int)
    (produced_timestamp timestamp : Int) (sample : Data) (offset : clock_offset Double)
    (h : history Data) : Bool × history Data :=
  let produced := from_headset offset (toUInt64 produced_timestamp)
  let t := from_headset offset (toUInt64 timestamp)
  let active := decide (produced - h.last_request < 1000000000)
  match add_sample_target offset.toBool produced t h.data with
  | none => (active, h)
  | some target => (active, { h with data := h.data.set target ⟨sample, produced, t⟩ })

/-! ## history.h: `get_at` -/

/-- The `for (auto & item: data)` loop of `get_at`: the final values of the pointers `before`
and `after` (`none` is `nullptr`). -/
def get_at_scan {Data : Type} (at_timestamp_ns : Int) :
    List (TimedData Data) → Option (TimedData Data) → Option (TimedData Data) →
      Option (TimedData Data) × Option (TimedData Data)
  | [], before, after => (before, after)
  | item :: items, before, after =>
    if item.at_timestamp_ns = 0 then get_at_scan at_timestamp_ns items before after
    else if item.at_timestamp_ns < at_timestamp_ns then
      match before with
      | none => get_at_scan at_timestamp_ns items (some item) after
      | some b =>
        if b.at_timestamp_ns < item.at_timestamp_ns then
          get_at_scan at_timestamp_ns items (some item) after
        else get_at_scan at_timestamp_ns items before after
    else
      match after with
      | none => get_at_scan at_timestamp_ns items before (some item)
      | some a =>
        if a.at_timestamp_ns > item.at_timestamp_ns then
          get_at_scan at_timestamp_ns items before (some item)
        else get_at_scan at_timestamp_ns items before after

/-- The local `produced` of `get_at`: the largest `produced_timestamp` among `0`, `after` and
`before`. -/
def get_at_produced {Data : Type} (before after : Option (TimedData Data)) : Int :=
  let produced : Int := 0
  let produced := match after with
    | some a => max produced a.produced_timestamp
    | none => produced
  match before with
  | some b => max produced b.produced_timestamp
  | none => produced

/-- The value initialised pair `return {};` of `get_at`. -/
def no_data {Data : Type} [Inhabited Data] : Int × Data := (0, default)

/-- The value `get_at` returns, a `std::pair<std::chrono::nanoseconds, Data>`, computed from the
slots.  (The `U_LOG_W` of an extrapolation beyond one millisecond does not change it.) -/
def get_at_value {Data F : Type} [Inhabited Data] (interpolate : Data → Data → F → Data)
    (toFloat : Int → F) (fdiv : F → F → F) (data : List (TimedData Data))
    (at_timestamp_ns : Int) : Int × Data :=
  match get_at_scan at_timestamp_ns data none none with
  | (before, after) =>
    let ex : Int := max 0 (at_timestamp_ns - get_at_produced before after)
    match before, after with
    | some b, some a =>
      let t : F := fdiv (toFloat (a.at_timestamp_ns - at_timestamp_ns))
        (toFloat (a.at_timestamp_ns - b.at_timestamp_ns))
      (ex, interpolate b.data a.data t)
    | some b, none =>
      if at_timestamp_ns > b.at_timestamp_ns + U_TIME_1S_IN_NS then no_data
      else (ex, b.data)
    | none, some a => (ex, a.data)
    | none, none => no_data

/-- The method `history::get_at`: the state after the call (`last_request` is set to the
current time, no slot is written) and the returned pair. -/
def get_at {Data F : Type} [Inhabited Data] (interpolate : Data → Data → F → Data)
    (toFloat : Int → F) (fdiv : F → F → F) (now : Int) (at_timestamp_ns : Int)
    (h : history Data) : history Data × (Int × Data) :=
  ({ h with last_request := now },
    get_at_value interpolate toFloat fdiv h.data at_timestamp_ns)

/-- Whether `get_at` emits its `U_LOG_W` warning: only `before` exists, the query is not more
than one second past it (no early `return {}`), and it is more than one millisecond past it. -/
def get_at_warns {Data : Type} (data : List (TimedData Data)) (at_timestamp_ns : Int) : Bool :=
  match get_at_scan at_timestamp_ns data none none with
  | (some b, none) =>
    !decide (at_timestamp_ns > b.at_timestamp_ns + U_TIME_1S_IN_NS) &&
      decide (at_timestamp_ns > b.at_timestamp_ns + U_TIME_1MS_IN_NS)
  | _ => false

/-! ## Sequences of calls and instances used in examples -/

/-- The arguments of one call of `add_sample`. -/
structure sample_call (Data Double : Type) where
  produced_timestamp : Int
  timestamp : Int
  sample : Data
  offset : clock_offset Double

/-- The local `produced` of `add_sample` for the arguments `c`. -/
def sample_call.produced {Data Double : Type} (from_headset : clock_offset Double → Nat → Int)
    (c : sample_call Data Double) : Int :=
  from_headset c.offset (toUInt64 c.produced_timestamp)

/-- The local `t` of `add_sample` for the arguments `c`. -/
def sample_call.t {Data Double : Type} (from_headset : clock_offset Double → Nat → Int)
    (c : sample_call Data Double) : Int :=
  from_headset c.offset (toUInt64 c.timestamp)

/-- The state after one call of `add_sample` with the arguments `c`. -/
def sample_call.run {Data Double : Type} (from_headset : clock_offset Double → Nat → Int)
    (h : history Data) (c : sample_call Data Double) : history Data :=
  (add_sample from_headset c.produced_timestamp c.timestamp c.sample c.offset h).2

/-- The state after a sequence of calls of `add_sample`, first call first. -/
def add_samples {Data Double : Type} (from_headset : clock_offset Double → Nat → Int)
    (calls : List (sample_call Data Double)) (h : history Data) : history Data :=
  calls.foldl (sample_call.run from_headset) h

/-- An instance of the parameter `from_headset` for the examples: the drift free conversion
(`a = 1`), which maps the headset time `y = x + b` to the server time `x`. -/
def from_headset_unit_drift (o : clock_offset ℚ) (y : Nat) : Int :=
  (y : Int) - o.b

/-- An instance of the parameter `interpolate` for the examples, on rational payloads:
`a t + b (1 - t)`. -/
def interpolate_lerp (a b t : ℚ) : ℚ :=
  a * t + b * (1 - t)

/-- The number of slots `get_at` treats as occupied (`at_timestamp_ns` not zero). -/
def occupied {Data : Type} (data : List (TimedData Data)) : Nat :=
  data.countP (fun item => decide (item.at_timestamp_ns ≠ 0))

/-- Whether `get_at` leaves through one of its three `return {ex, ...}` statements, that is,
returns the data of a stored sample or an interpolation of two. -/
def get_at_returns_data {Data : Type} (data : List (TimedData Data)) (at_timestamp_ns : Int) :
    Bool :=
  match get_at_scan at_timestamp_ns data none none with
  | (some _, some _) => true
  | (some b, none) => !decide (at_timestamp_ns > b.at_timestamp_ns + U_TIME_1S_IN_NS)
  | (none, some _) => true
  | (none, none) => false

/-- A calibrated offset for the examples: `b = 1`, `a = 1`. -/
def offset_one : clock_offset ℚ := ⟨1, 1⟩

/-- A calibrated offset for the examples under which small headset times are converted to
negative server times: `b = 10`, `a = 1`. -/
def offset_ten : clock_offset ℚ := ⟨10, 1⟩

/-- Two calls of the examples: a sample produced at 10 for the instant 100, then a sample
produced at 50 for the instant 10 ms (converted values, the offset is `offset_one`). -/
def reorder_calls : List (sample_call Nat ℚ) :=
  [⟨11, 101, 1, offset_one⟩, ⟨51, 10000001, 2, offset_one⟩]

/-- Three calls of the examples with the converted `produced` 10, 20, 30. -/
def increasing_calls : List (sample_call Nat ℚ) :=
  [⟨11, 101, 1, offset_one⟩, ⟨21, 5000001, 2, offset_one⟩, ⟨31, 9000001, 3, offset_one⟩]

/-- A state of the examples with three slots, the oldest of which is the second. -/
def three_slots : history Nat :=
  { data := [⟨1, 10, 10000000⟩, ⟨2, 20, 5000000⟩, ⟨3, 30, 20000000⟩], last_request := 0 }

/-- Instances of the parameters `toFloat` (`float(x)`) and `fdiv` (`/` on `float`) for the
examples: exact rational arithmetic. -/
def toFloat_exact (x : Int) : ℚ := (x : ℚ)

/-- See `toFloat_exact`. -/
def fdiv_exact (x y : ℚ) : ℚ := x / y

/-- An instance of the parameter `interpolate` for the examples on payloads in `Nat`: the
payload of the nearer sample (`t` is one at `before` and zero at `after`). -/
def interpolate_nearest (a b : Nat) (t : ℚ) : Nat :=
  if 2 * t < 1 then b else a

/-- Two calls of the examples on rational payloads: the payload 10 for the instant 100 and the
payload 20 for the instant 200 (converted values, the offset is `offset_one`). -/
def midpoint_calls : List (sample_call ℚ ℚ) :=
  [⟨2, 101, 10, offset_one⟩, ⟨3, 201, 20, offset_one⟩]

/-! ## Reference definitions for the query and the produced time stamps -/

/-- Reference, in the words of the specification: `b` is "the occupied slot with the largest
`at_timestamp` that is still `< at_timestamp`" among the slots `data`; `none` stands for there
being no such slot. A slot is occupied when its `at_timestamp_ns` is not zero. -/
def reference_before {Data : Type} (at_timestamp_ns : Int) (data : List (TimedData Data))
    (b : Option (TimedData Data)) : Prop :=
  match b with
  | none => ∀ y ∈ data, y.at_timestamp_ns ≠ 0 → ¬ y.at_timestamp_ns < at_timestamp_ns
  | some x =>
    x ∈ data ∧ x.at_timestamp_ns ≠ 0 ∧ x.at_timestamp_ns < at_timestamp_ns ∧
      ∀ y ∈ data, y.at_timestamp_ns ≠ 0 → y.at_timestamp_ns < at_timestamp_ns →
        y.at_timestamp_ns ≤ x.at_timestamp_ns

/-- Reference, in the words of the specification: `a` is "the occupied slot with the smallest
`at_timestamp` that is `>= at_timestamp`" among the slots `data`; `none` stands for there being
no such slot. -/
def reference_after {Data : Type} (at_timestamp_ns : Int) (data : List (TimedData Data))
    (a : Option (TimedData Data)) : Prop :=
  match a with
  | none => ∀ y ∈ data, y.at_timestamp_ns ≠ 0 → y.at_timestamp_ns < at_timestamp_ns
  | some x =>
    x ∈ data ∧ x.at_timestamp_ns ≠ 0 ∧ ¬ x.at_timestamp_ns < at_timestamp_ns ∧
      ∀ y ∈ data, y.at_timestamp_ns ≠ 0 → ¬ y.at_timestamp_ns < at_timestamp_ns →
        x.at_timestamp_ns ≤ y.at_timestamp_ns

/-- Reference, in the words of the specification: the maximum `produced_timestamp` "over
whichever of `before`/`after` exist"; `none` when neither exists. -/
def reference_produced {Data : Type} (before after : Option (TimedData Data)) : Option Int :=
  match before, after with
  | some b, some a => some (max b.produced_timestamp a.produced_timestamp)
  | some b, none => some b.produced_timestamp
  | none, some a => some a.produced_timestamp
  | none, none => none

/-- The maximum `produced_timestamp` over all slots (0 for an array without slots). -/
def max_produced {Data : Type} : List (TimedData Data) → Int
  | [] => 0
  | [x] => x.produced_timestamp
  | x :: y :: rest => max x.produced_timestamp (max_produced (y :: rest))

/-- An instance of the parameter `from_headset` for the examples: the drift free conversion
(`a = 1`) that reads its argument back as a signed 64 bit value before it subtracts `b`. -/
def from_headset_signed (o : clock_offset ℚ) (y : Nat) : Int :=
  (if y < 9223372036854775808 then (y : Int) else (y : Int) - 18446744073709551616) - o.b

/-- An offset that is not calibrated, for the examples: `b = 0`, `a = 1`. -/
def offset_zero : clock_offset ℚ := ⟨0, 1⟩

/-! ## Lemmas on the scan of `add_sample` -/

theorem abs64_eq_abs (x : Int) : abs64 x = |x| := by
  unfold abs64
  split
  · rename_i hx
    rw [abs_of_neg hx]
  · rename_i hx
    rw [abs_of_nonneg (not_lt.mp hx)]

/-- The scan ends on the initial target or on the index of a visited slot. -/
theorem add_sample_scan_index {Data : Type} (produced t : Int) :
    ∀ (items : List (TimedData Data)) (i target : Nat) (tat : Int) (j : Nat),
      add_sample_scan produced t items i target tat = some j →
        j = target ∨ (i ≤ j ∧ j < i + items.length)
  | [], _, _, _, _, h => by
    simp only [add_sample_scan, Option.some.injEq] at h
    exact Or.inl h.symm
  | item :: items, i, target, tat, j, h => by
    simp only [add_sample_scan] at h
    split_ifs at h with h1 h2 h3
    · simp only [Option.some.injEq] at h
      right
      simp only [List.length_cons]
      omega
    · rcases add_sample_scan_index produced t items (i + 1) i _ j h with r | r
      · right
        simp only [List.length_cons]
        omega
      · right
        simp only [List.length_cons]
        omega
    · rcases add_sample_scan_index produced t items (i + 1) target tat j h with r | r
      · exact Or.inl r
      · right
        simp only [List.length_cons]
        omega

/-- The scan does not discard the packet when no visited slot was produced later. -/
theorem add_sample_scan_accepts {Data : Type} (produced t : Int) :
    ∀ (items : List (TimedData Data)) (i target : Nat) (tat : Int),
      (∀ item ∈ items, item.produced_timestamp ≤ produced) →
        ∃ j, add_sample_scan produced t items i target tat = some j
  | [], _, target, _, _ => ⟨target, rfl⟩
  | item :: items, i, target, tat, h => by
    have h0 : ¬ item.produced_timestamp > produced :=
      not_lt.mpr (h item (List.mem_cons_self _ _))
    have hrest : ∀ x ∈ items, x.produced_timestamp ≤ produced :=
      fun x hx => h x (List.mem_cons_of_mem _ hx)
    simp only [add_sample_scan, if_neg h0]
    split_ifs with h2 h3
    · exact ⟨i, rfl⟩
    · exact add_sample_scan_accepts produced t items (i + 1) i _ hrest
    · exact add_sample_scan_accepts produced t items (i + 1) target tat hrest

/-- When no visited slot is within the 2 ms window, the scan ends on the initial target if no
visited slot is older, and otherwise on a visited slot that is older than the initial target and
at least as old as every visited slot. -/
theorem add_sample_scan_oldest {Data : Type} (produced t : Int) :
    ∀ (items : List (TimedData Data)) (i target : Nat) (tat : Int) (j : Nat),
      (∀ item ∈ items, ¬ abs64 (item.at_timestamp_ns - t) < 2000000) →
      add_sample_scan produced t items i target tat = some j →
        (j = target ∧ ∀ item ∈ items, tat ≤ item.at_timestamp_ns) ∨
        (i ≤ j ∧ ∃ x, items[j - i]? = some x ∧ x.at_timestamp_ns < tat ∧
          ∀ item ∈ items, x.at_timestamp_ns ≤ item.at_timestamp_ns)
  | [], _, _, _, _, _, h => by
    simp only [add_sample_scan, Option.some.injEq] at h
    exact Or.inl ⟨h.symm, fun _ hx => absurd hx (List.not_mem_nil _)⟩
  | item :: items, i, target, tat, j, hfar, h => by
    have h2 : ¬ abs64 (item.at_timestamp_ns - t) < 2000000 :=
      hfar item (List.mem_cons_self _ _)
    have hrest : ∀ x ∈ items, ¬ abs64 (x.at_timestamp_ns - t) < 2000000 :=
      fun x hx => hfar x (List.mem_cons_of_mem _ hx)
    simp only [add_sample_scan, if_neg h2] at h
    split_ifs at h with h1 h3
    · rcases add_sample_scan_oldest produced t items (i + 1) i _ j hrest h with
        ⟨hj, hmin⟩ | ⟨hij, x, hx, hlt, hmin⟩
      · right
        refine ⟨by omega, item, ?_, h3, ?_⟩
        · subst hj
          simp
        · intro y hy
          rcases List.mem_cons.mp hy with rfl | hy
          · exact le_refl _
          · exact hmin y hy
      · right
        refine ⟨by omega, x, ?_, by omega, ?_⟩
        · have hji : j - i = (j - (i + 1)) + 1 := by omega
          rw [hji, List.getElem?_cons_succ]
          exact hx
        · intro y hy
          rcases List.mem_cons.mp hy with rfl | hy
          · omega
          · exact hmin y hy
    · rcases add_sample_scan_oldest produced t items (i + 1) target tat j hrest h with
        ⟨hj, hmin⟩ | ⟨hij, x, hx, hlt, hmin⟩
      · left
        refine ⟨hj, ?_⟩
        intro y hy
        rcases List.mem_cons.mp hy with rfl | hy
        · omega
        · exact hmin y hy
      · right
        refine ⟨by omega, x, ?_, hlt, ?_⟩
        · have hji : j - i = (j - (i + 1)) + 1 := by omega
          rw [hji, List.getElem?_cons_succ]
          exact hx
        · intro y hy
          rcases List.mem_cons.mp hy with rfl | hy
          · omega
          · exact hmin y hy

/-! ## Lemmas on `add_sample` -/

/-- A call that is not discarded writes exactly its target slot. -/
theorem add_sample_data_of_target {Data Double : Type}
    (from_headset : clock_offset Double → Nat → Int) (produced_timestamp timestamp : Int)
    (sample : Data) (offset : clock_offset Double) (h : history Data) (i : Nat)
    (hi : add_sample_target offset.toBool (from_headset offset (toUInt64 produced_timestamp))
      (from_headset offset (toUInt64 timestamp)) h.data = some i) :
    (add_sample from_headset produced_timestamp timestamp sample offset h).2.data =
      h.data.set i ⟨sample, from_headset offset (toUInt64 produced_timestamp),
        from_headset offset (toUInt64 timestamp)⟩ := by
  simp only [add_sample, hi]

/-- A discarded call leaves the state as it was. -/
theorem add_sample_state_of_discarded {Data Double : Type}
    (from_headset : clock_offset Double → Nat → Int) (produced_timestamp timestamp : Int)
    (sample : Data) (offset : clock_offset Double) (h : history Data)
    (hi : add_sample_target offset.toBool (from_headset offset (toUInt64 produced_timestamp))
      (from_headset offset (toUInt64 timestamp)) h.data = none) :
    (add_sample from_headset produced_timestamp timestamp sample offset h).2 = h := by
  simp only [add_sample, hi]

/-- No call changes the number of slots. -/
theorem add_sample_length {Data Double : Type}
    (from_headset : clock_offset Double → Nat → Int) (produced_timestamp timestamp : Int)
    (sample : Data) (offset : clock_offset Double) (h : history Data) :
    (add_sample from_headset produced_timestamp timestamp sample offset h).2.data.length =
      h.data.length := by
  cases hT : add_sample_target offset.toBool (from_headset offset (toUInt64 produced_timestamp))
    (from_headset offset (toUInt64 timestamp)) h.data with
  | none => rw [add_sample_state_of_discarded from_headset _ _ sample offset h hT]
  | some i =>
    rw [add_sample_data_of_target from_headset _ _ sample offset h i hT, List.length_set]

/-- The target of a call is a slot of the array, and there is one when no slot was produced
later than the incoming sample. -/
theorem add_sample_target_of_bound {Data : Type} (calibrated : Bool) (produced t : Int)
    (data : List (TimedData Data)) (hne : data ≠ [])
    (hle : ∀ item ∈ data, item.produced_timestamp ≤ produced) :
    ∃ i, i < data.length ∧ add_sample_target calibrated produced t data = some i := by
  cases data with
  | nil => exact absurd rfl hne
  | cons first rest =>
    cases calibrated with
    | false => exact ⟨0, by simp, by simp [add_sample_target]⟩
    | true =>
      obtain ⟨j, hj⟩ :=
        add_sample_scan_accepts produced t (first :: rest) 0 0 first.at_timestamp_ns hle
      refine ⟨j, ?_, by simpa [add_sample_target] using hj⟩
      rcases add_sample_scan_index produced t _ 0 0 _ j hj with r | r
      · simp [r]
      · omega

/-- After a call, no slot is produced later than `m` when this held before and the incoming
sample is not produced later than `m`. -/
theorem add_sample_produced_bound {Data Double : Type}
    (from_headset : clock_offset Double → Nat → Int) (produced_timestamp timestamp : Int)
    (sample : Data) (offset : clock_offset Double) (h : history Data) (m : Int)
    (hle : ∀ item ∈ h.data, item.produced_timestamp ≤ m)
    (hm : from_headset offset (toUInt64 produced_timestamp) ≤ m) :
    ∀ item ∈ (add_sample from_headset produced_timestamp timestamp sample offset h).2.data,
      item.produced_timestamp ≤ m := by
  intro item hitem
  cases hT : add_sample_target offset.toBool (from_headset offset (toUInt64 produced_timestamp))
    (from_headset offset (toUInt64 timestamp)) h.data with
  | none =>
    rw [add_sample_state_of_discarded from_headset _ _ sample offset h hT] at hitem
    exact hle item hitem
  | some i =>
    rw [add_sample_data_of_target from_headset _ _ sample offset h i hT] at hitem
    rcases List.mem_or_eq_of_mem_set hitem with hmem | heq
    · exact hle item hmem
    · rw [heq]
      exact hm

/-- Along a sequence of calls whose converted `produced` increases, starting in a state none
of whose slots was produced later than the first call, every call has a target slot and
writes its sample there. -/
theorem add_samples_accepts {Data Double : Type}
    (from_headset : clock_offset Double → Nat → Int) :
    ∀ (pre : List (sample_call Data Double)) (c : sample_call Data Double)
      (post : List (sample_call Data Double)) (h : history Data) (m : Int),
      h.data ≠ [] →
      (∀ item ∈ h.data, item.produced_timestamp ≤ m) →
      (∀ x ∈ pre ++ c :: post, m ≤ x.produced from_headset) →
      (pre ++ c :: post).Pairwise
        (fun x y => x.produced from_headset < y.produced from_headset) →
      ∃ i, i < h.data.length ∧
        add_sample_target c.offset.toBool (c.produced from_headset) (c.t from_headset)
          (add_samples from_headset pre h).data = some i ∧
        (sample_call.run from_headset (add_samples from_headset pre h) c).data[i]? =
          some ⟨c.sample, c.produced from_headset, c.t from_headset⟩
  | [], c, post, h, m, hne, hle, hm, _ => by
    have hc : m ≤ c.produced from_headset := hm c (by simp)
    obtain ⟨i, hi, ht⟩ := add_sample_target_of_bound c.offset.toBool
      (c.produced from_headset) (c.t from_headset) h.data hne
      (fun item hitem => le_trans (hle item hitem) hc)
    refine ⟨i, hi, ht, ?_⟩
    have hset := add_sample_data_of_target from_headset c.produced_timestamp c.timestamp
      c.sample c.offset h i ht
    simp only [sample_call.run, add_samples, List.foldl_nil]
    rw [hset, List.getElem?_set_self hi]
    rfl
  | p :: pre, c, post, h, m, hne, hle, hm, hpw => by
    have hp : m ≤ p.produced from_headset := hm p (by simp)
    have hpw2 := List.pairwise_cons.mp hpw
    have hlen := add_sample_length from_headset p.produced_timestamp p.timestamp p.sample
      p.offset h
    have hne2 : (sample_call.run from_headset h p).data ≠ [] := by
      intro h0
      have : (sample_call.run from_headset h p).data.length = 0 := by rw [h0]; rfl
      simp only [sample_call.run] at this
      rw [hlen] at this
      exact hne (List.length_eq_zero.mp this)
    have hle2 : ∀ item ∈ (sample_call.run from_headset h p).data,
        item.produced_timestamp ≤ p.produced from_headset :=
      add_sample_produced_bound from_headset p.produced_timestamp p.timestamp p.sample
        p.offset h (p.produced from_headset)
        (fun item hitem => le_trans (hle item hitem) hp) (le_refl _)
    obtain ⟨i, hi, hres⟩ := add_samples_accepts from_headset pre c post
      (sample_call.run from_headset h p) (p.produced from_headset) hne2 hle2
      (fun x hx => le_of_lt (hpw2.1 x hx)) hpw2.2
    refine ⟨i, ?_, hres⟩
    simp only [sample_call.run] at hi
    rw [hlen] at hi
    exact hi

/-! ## Reorder rejection -/

/-- C1, evaluated on the code. Into a fresh buffer of ten slots a sample produced at 10 for
the instant 100 and a sample produced at 50 for the instant 10 ms are inserted; they occupy
slots 0 and 1. A third calibrated call then brings a sample produced at 20 (earlier than the
50 held by slot 1) for the instant 100: the scan finds slot 0 within the 2 ms window and leaves
the loop before it visits slot 1, so the call is not discarded, slot 0 is overwritten, and
afterwards slot 1 holds a `produced_timestamp` greater than that of the sample just stored. -/
theorem reordered_sample_stored_past_coalescing_slot :
    (add_samples from_headset_unit_drift reorder_calls (history.init 10 0)).data[1]? =
      some ⟨2, 50, 10000000⟩ ∧
    add_sample_target offset_one.toBool 20 100
      (add_samples from_headset_unit_drift reorder_calls (history.init 10 0)).data = some 0 ∧
    (add_sample from_headset_unit_drift 21 101 3 offset_one
      (add_samples from_headset_unit_drift reorder_calls (history.init 10 0))).2.data[0]? =
      some ⟨3, 20, 100⟩ ∧
    (add_sample from_headset_unit_drift 21 101 3 offset_one
      (add_samples from_headset_unit_drift reorder_calls (history.init 10 0))).2.data[1]? =
      some ⟨2, 50, 10000000⟩ := by
  decide

/-- C2, counterexample. The first call on a fresh buffer, with a calibrated offset and the
converted `produced` -5, is discarded: the value initialised slots hold the
`produced_timestamp` 0, which is greater. The state is left as constructed. -/
theorem negative_produced_discarded_on_fresh_buffer :
    from_headset_unit_drift offset_ten (toUInt64 5) = -5 ∧
    offset_ten.toBool = true ∧
    add_sample_target offset_ten.toBool (from_headset_unit_drift offset_ten (toUInt64 5))
      (from_headset_unit_drift offset_ten (toUInt64 110))
      (history.init 10 0 : history Nat).data = none ∧
    (add_sample from_headset_unit_drift 5 110 7 offset_ten (history.init 10 0)).2 =
      history.init 10 0 := by
  decide

/-- C2, amended. From a freshly constructed buffer with at least one slot, along every
sequence of `add_sample` calls whose converted `produced` time stamps are non-negative and
strictly increasing (whatever the offsets, calibrated or not), no call is discarded: each call
has a target slot `i < MaxSamples`, and after the call slot `i` holds the sample with its
converted time stamps. -/
theorem increasing_nonneg_samples_all_stored {Data Double : Type} [Inhabited Data]
    (from_headset : clock_offset Double → Nat → Int) (MaxSamples : Nat) (now : Int)
    (calls : List (sample_call Data Double))
    (hN : 0 < MaxSamples)
    (hpos : ∀ c ∈ calls, 0 ≤ c.produced from_headset)
    (hinc : calls.Pairwise (fun x y => x.produced from_headset < y.produced from_headset)) :
    ∀ (pre : List (sample_call Data Double)) (c : sample_call Data Double)
      (post : List (sample_call Data Double)), calls = pre ++ c :: post →
      ∃ i, i < MaxSamples ∧
        add_sample_target c.offset.toBool (c.produced from_headset) (c.t from_headset)
          (add_samples from_headset pre (history.init MaxSamples now)).data = some i ∧
        (sample_call.run from_headset
          (add_samples from_headset pre (history.init MaxSamples now)) c).data[i]? =
          some ⟨c.sample, c.produced from_headset, c.t from_headset⟩ := by
  intro pre c post hcalls
  subst hcalls
  have hne : (history.init MaxSamples now : history Data).data ≠ [] := by
    intro h0
    have hlen : (history.init MaxSamples now : history Data).data.length = 0 := by
      rw [h0]; rfl
    simp only [history.init, List.length_replicate] at hlen
    omega
  have hle : ∀ item ∈ (history.init MaxSamples now : history Data).data,
      item.produced_timestamp ≤ 0 := by
    intro item hitem
    simp only [history.init] at hitem
    rw [List.eq_of_mem_replicate hitem]
    exact le_refl _
  obtain ⟨i, hi, hres⟩ := add_samples_accepts from_headset pre c post
    (history.init MaxSamples now) 0 hne hle hpos hinc
  refine ⟨i, ?_, hres⟩
  simpa [history.init] using hi

/-- Witness of `increasing_nonneg_samples_all_stored`: the third of three calls with the
converted `produced` 10, 20, 30 on a fresh buffer of ten slots. -/
theorem increasing_nonneg_samples_all_stored_witness :
    ∃ i, i < 10 ∧
      add_sample_target offset_one.toBool 30 9000000
        (add_samples from_headset_unit_drift
          [⟨11, 101, 1, offset_one⟩, ⟨21, 5000001, 2, offset_one⟩]
          (history.init 10 0 : history Nat)).data = some i ∧
      (sample_call.run from_headset_unit_drift
        (add_samples from_headset_unit_drift
          [⟨11, 101, 1, offset_one⟩, ⟨21, 5000001, 2, offset_one⟩]
          (history.init 10 0 : history Nat)) ⟨31, 9000001, 3, offset_one⟩).data[i]? =
        some ⟨3, 30, 9000000⟩ :=
  increasing_nonneg_samples_all_stored from_headset_unit_drift 10 0 increasing_calls
    (by decide) (by decide) (by decide)
    [⟨11, 101, 1, offset_one⟩, ⟨21, 5000001, 2, offset_one⟩] ⟨31, 9000001, 3, offset_one⟩ []
    rfl

/-! ## Liveness flag -/

/-- C9. Whatever the state and the arguments, `add_sample` returns
`produced - last_request < 1000000000` for the converted `produced` and the `last_request` of
the state before the call (on every path: stored, discarded as reordered, offset not
calibrated), and the state after the call has the same `last_request`. -/
theorem add_sample_active_flag {Data Double : Type}
    (from_headset : clock_offset Double → Nat → Int) (produced_timestamp timestamp : Int)
    (sample : Data) (offset : clock_offset Double) (h : history Data) :
    (add_sample from_headset produced_timestamp timestamp sample offset h).1 =
      decide (from_headset offset (toUInt64 produced_timestamp) - h.last_request < 1000000000) ∧
    (add_sample from_headset produced_timestamp timestamp sample offset h).2.last_request =
      h.last_request := by
  cases hT : add_sample_target offset.toBool (from_headset offset (toUInt64 produced_timestamp))
    (from_headset offset (toUInt64 timestamp)) h.data with
  | none => simp only [add_sample, hT, and_self]
  | some i => simp only [add_sample, hT, and_self]

/-! ## Eviction -/

/-- C10. For every state with at least one slot and every `add_sample` call with a calibrated
offset that is not discarded and whose converted `t` is at least 2 ms away from the
`at_timestamp_ns` of every slot, the target slot `i` holds an `at_timestamp_ns` that is least
among all slots; after the call slot `i` holds the new sample and every other slot is as it
was. -/
theorem add_sample_evicts_oldest {Data Double : Type}
    (from_headset : clock_offset Double → Nat → Int) (produced_timestamp timestamp : Int)
    (sample : Data) (offset : clock_offset Double) (h : history Data) (produced t : Int)
    (hproduced : from_headset offset (toUInt64 produced_timestamp) = produced)
    (ht : from_headset offset (toUInt64 timestamp) = t)
    (hne : h.data ≠ [])
    (hcal : offset.b ≠ 0)
    (hacc : add_sample_target offset.toBool produced t h.data ≠ none)
    (hfar : ∀ item ∈ h.data, 2000000 ≤ |item.at_timestamp_ns - t|) :
    ∃ i old, h.data[i]? = some old ∧
      (∀ item ∈ h.data, old.at_timestamp_ns ≤ item.at_timestamp_ns) ∧
      add_sample_target offset.toBool produced t h.data = some i ∧
      (add_sample from_headset produced_timestamp timestamp sample offset h).2.data[i]? =
        some ⟨sample, produced, t⟩ ∧
      ∀ j, j ≠ i →
        (add_sample from_headset produced_timestamp timestamp sample offset h).2.data[j]? =
          h.data[j]? := by
  subst hproduced ht
  have hfar2 : ∀ item ∈ h.data,
      ¬ abs64 (item.at_timestamp_ns - from_headset offset (toUInt64 timestamp)) < 2000000 := by
    intro item hitem
    rw [abs64_eq_abs]
    exact not_lt.mpr (hfar item hitem)
  obtain ⟨i, hi⟩ := Option.ne_none_iff_exists'.mp hacc
  have hset := add_sample_data_of_target from_headset produced_timestamp timestamp sample
    offset h i hi
  have hold : ∃ old, h.data[i]? = some old ∧
      ∀ item ∈ h.data, old.at_timestamp_ns ≤ item.at_timestamp_ns := by
    have hb : offset.toBool = true := by simp [clock_offset.toBool, hcal]
    rw [hb] at hi
    cases hd : h.data with
    | nil => exact absurd hd hne
    | cons first rest =>
      rw [hd] at hi hfar2
      simp only [add_sample_target, if_true] at hi
      rcases add_sample_scan_oldest _ _ (first :: rest) 0 0 first.at_timestamp_ns i hfar2 hi
        with ⟨hj, hmin⟩ | ⟨_, x, hx, _, hmin⟩
      · exact ⟨first, by simp [hj], hmin⟩
      · exact ⟨x, by simpa using hx, hmin⟩
  obtain ⟨old, hold1, hold2⟩ := hold
  refine ⟨i, old, hold1, hold2, hi, ?_, ?_⟩
  · rw [hset, List.getElem?_set_self', hold1]
    rfl
  · intro j hj
    rw [hset, List.getElem?_set_ne (Ne.symm hj)]

/-- Witness of `add_sample_evicts_oldest`: in a state of three slots for the instants 10 ms,
5 ms and 20 ms, a sample for the instant 30 ms replaces the second slot. -/
theorem add_sample_evicts_oldest_witness :
    ∃ i old, three_slots.data[i]? = some old ∧
      (∀ item ∈ three_slots.data, old.at_timestamp_ns ≤ item.at_timestamp_ns) ∧
      add_sample_target offset_one.toBool 40 30000000 three_slots.data = some i ∧
      (add_sample from_headset_unit_drift 41 30000001 4 offset_one three_slots).2.data[i]? =
        some ⟨4, 40, 30000000⟩ ∧
      ∀ j, j ≠ i →
        (add_sample from_headset_unit_drift 41 30000001 4 offset_one three_slots).2.data[j]? =
          three_slots.data[j]? :=
  add_sample_evicts_oldest from_headset_unit_drift 41 30000001 4 offset_one three_slots
    40 30000000 (by decide) (by decide) (by decide) (by decide) (by decide) (by decide)

/-! ## Lemmas on a freshly constructed buffer -/

/-- On value initialised slots the scan keeps its target when the incoming `produced` is not
negative and the incoming `t` is outside the 2 ms window around zero. -/
theorem add_sample_scan_replicate_far {Data : Type} [Inhabited Data] (produced t : Int)
    (hp : 0 ≤ produced) (hfar : ¬ abs64 (0 - t) < 2000000) :
    ∀ (n i target : Nat),
      add_sample_scan produced t (List.replicate n (default : TimedData Data)) i target 0 =
        some target
  | 0, _, _ => rfl
  | n + 1, i, target => by
    have h1 : ¬ (default : TimedData Data).produced_timestamp > produced := not_lt.mpr hp
    have h2 : ¬ abs64 ((default : TimedData Data).at_timestamp_ns - t) < 2000000 := hfar
    have h3 : ¬ (default : TimedData Data).at_timestamp_ns < 0 := lt_irrefl _
    simp only [List.replicate_succ, add_sample_scan, if_neg h1, if_neg h2, if_neg h3]
    exact add_sample_scan_replicate_far produced t hp hfar n (i + 1) target

/-- The first call on a fresh buffer with at least one slot writes slot 0, unless the offset is
calibrated and the converted `produced` is negative. -/
theorem add_sample_target_fresh {Data : Type} [Inhabited Data] (calibrated : Bool)
    (produced t : Int) (n : Nat) (hp : calibrated = true → 0 ≤ produced) :
    add_sample_target calibrated produced t
      (List.replicate (n + 1) (default : TimedData Data)) = some 0 := by
  cases calibrated with
  | false => simp [add_sample_target]
  | true =>
    have hp0 : 0 ≤ produced := hp rfl
    by_cases hfar : abs64 (0 - t) < 2000000
    · have h1 : ¬ (default : TimedData Data).produced_timestamp > produced := not_lt.mpr hp0
      have h2 : abs64 ((default : TimedData Data).at_timestamp_ns - t) < 2000000 := hfar
      simp only [add_sample_target, List.replicate_succ, add_sample_scan, if_true, if_neg h1,
        if_pos h2]
    · have hs := @add_sample_scan_replicate_far Data _ produced t hp0 hfar (n + 1) 0 0
      simpa [add_sample_target, List.replicate_succ] using hs

/-- The slots after the first call on a fresh buffer: the sample in slot 0, the other slots
value initialised. -/
theorem add_sample_fresh {Data Double : Type} [Inhabited Data]
    (from_headset : clock_offset Double → Nat → Int) (produced_timestamp timestamp : Int)
    (sample : Data) (offset : clock_offset Double) (n : Nat) (now : Int)
    (hp : offset.b ≠ 0 → 0 ≤ from_headset offset (toUInt64 produced_timestamp)) :
    (add_sample from_headset produced_timestamp timestamp sample offset
      (history.init (n + 1) now)).2.data =
      ⟨sample, from_headset offset (toUInt64 produced_timestamp),
        from_headset offset (toUInt64 timestamp)⟩ :: List.replicate n default := by
  have ht := @add_sample_target_fresh Data _ offset.toBool
    (from_headset offset (toUInt64 produced_timestamp))
    (from_headset offset (toUInt64 timestamp)) n
    (by intro hb; exact hp (by simpa [clock_offset.toBool] using hb))
  rw [add_sample_data_of_target from_headset produced_timestamp timestamp sample offset
    (history.init (n + 1) now) 0 ht]
  simp [history.init, List.replicate_succ]

/-! ## Lemmas on the scan of `get_at` -/

/-- The scan of `get_at` skips value initialised slots. -/
theorem get_at_scan_replicate {Data : Type} [Inhabited Data] (q : Int)
    (before after : Option (TimedData Data)) :
    ∀ n : Nat, get_at_scan q (List.replicate n (default : TimedData Data)) before after =
      (before, after)
  | 0 => rfl
  | n + 1 => by
    have h0 : (default : TimedData Data).at_timestamp_ns = 0 := rfl
    simp only [List.replicate_succ, get_at_scan, if_pos h0]
    exact get_at_scan_replicate q before after n

/-- The scan of `get_at` on a first slot that lies before the query. -/
theorem get_at_scan_cons_before {Data : Type} (q : Int) (item : TimedData Data)
    (items : List (TimedData Data)) (h0 : item.at_timestamp_ns ≠ 0)
    (hlt : item.at_timestamp_ns < q) :
    get_at_scan q (item :: items) none none = get_at_scan q items (some item) none := by
  simp only [get_at_scan, if_neg h0, if_pos hlt]

/-- The scan of `get_at` on a first slot that does not lie before the query. -/
theorem get_at_scan_cons_after {Data : Type} (q : Int) (item : TimedData Data)
    (items : List (TimedData Data)) (h0 : item.at_timestamp_ns ≠ 0)
    (hge : ¬ item.at_timestamp_ns < q) :
    get_at_scan q (item :: items) none none = get_at_scan q items none (some item) := by
  simp only [get_at_scan, if_neg h0, if_neg hge]

/-- The value of `get_at` when a single slot is occupied and lies before the query. -/
theorem get_at_value_single_before {Data F : Type} [Inhabited Data]
    (interpolate : Data → Data → F → Data) (toFloat : Int → F) (fdiv : F → F → F)
    (item : TimedData Data) (n : Nat) (q : Int) (h0 : item.at_timestamp_ns ≠ 0)
    (hlt : item.at_timestamp_ns < q) :
    get_at_value interpolate toFloat fdiv (item :: List.replicate n default) q =
      if q > item.at_timestamp_ns + U_TIME_1S_IN_NS then no_data
      else (max 0 (q - max 0 item.produced_timestamp), item.data) := by
  simp only [get_at_value, get_at_scan_cons_before q item _ h0 hlt, get_at_scan_replicate,
    get_at_produced]

/-- The value of `get_at` when a single slot is occupied and does not lie before the query. -/
theorem get_at_value_single_after {Data F : Type} [Inhabited Data]
    (interpolate : Data → Data → F → Data) (toFloat : Int → F) (fdiv : F → F → F)
    (item : TimedData Data) (n : Nat) (q : Int) (h0 : item.at_timestamp_ns ≠ 0)
    (hge : ¬ item.at_timestamp_ns < q) :
    get_at_value interpolate toFloat fdiv (item :: List.replicate n default) q =
      (max 0 (q - max 0 item.produced_timestamp), item.data) := by
  simp only [get_at_value, get_at_scan_cons_after q item _ h0 hge, get_at_scan_replicate,
    get_at_produced]

/-! ## Queries on a buffer holding no or one sample -/

/-- C7. For every capacity, construction time, time of the call and query time stamp, `get_at`
on a freshly constructed buffer returns the `no data` pair, whatever the interpolation. -/
theorem get_at_fresh_no_data {Data F : Type} [Inhabited Data]
    (interpolate : Data → Data → F → Data) (toFloat : Int → F) (fdiv : F → F → F)
    (MaxSamples : Nat) (constructed now at_timestamp_ns : Int) :
    (get_at interpolate toFloat fdiv now at_timestamp_ns
      (history.init MaxSamples constructed)).2 = no_data := by
  simp only [get_at, get_at_value, history.init, get_at_scan_replicate]

/-- C6, counterexample at `T = 0`. A sample with payload 7 whose converted time stamps are both
0 is written to slot 0 of a fresh buffer (calibrated offset), but `get_at(0)` skips the slot,
its `at_timestamp_ns` being zero, and returns the `no data` pair instead of `(0, 7)`. -/
theorem round_trip_fails_at_zero :
    from_headset_unit_drift offset_one (toUInt64 1) = 0 ∧
    (add_sample from_headset_unit_drift 1 1 7 offset_one (history.init 10 0)).2.data[0]? =
      some ⟨7, 0, 0⟩ ∧
    (get_at interpolate_nearest toFloat_exact fdiv_exact 0 0
      (add_sample from_headset_unit_drift 1 1 7 offset_one (history.init 10 0)).2).2 =
      no_data ∧
    (get_at interpolate_nearest toFloat_exact fdiv_exact 0 0
      (add_sample from_headset_unit_drift 1 1 7 offset_one (history.init 10 0)).2).2 ≠
      (0, 7) := by
  decide

/-- C6, amended. For every `T > 0` and payload `d`, after a single `add_sample` into a fresh
buffer with at least one slot whose converted `at` and `produced` time stamps are both `T`,
`get_at(T)` returns exactly `d` with extrapolation duration 0. -/
theorem round_trip_positive {Data Double F : Type} [Inhabited Data]
    (from_headset : clock_offset Double → Nat → Int) (interpolate : Data → Data → F → Data)
    (toFloat : Int → F) (fdiv : F → F → F) (MaxSamples : Nat) (constructed now : Int)
    (produced_timestamp timestamp : Int) (d : Data) (offset : clock_offset Double) (T : Int)
    (hN : 0 < MaxSamples) (hT : 0 < T)
    (hproduced : from_headset offset (toUInt64 produced_timestamp) = T)
    (ht : from_headset offset (toUInt64 timestamp) = T) :
    (get_at interpolate toFloat fdiv now T
      (add_sample from_headset produced_timestamp timestamp d offset
        (history.init MaxSamples constructed)).2).2 = (0, d) := by
  obtain ⟨n, rfl⟩ : ∃ n, MaxSamples = n + 1 := ⟨MaxSamples - 1, by omega⟩
  have hfresh := add_sample_fresh from_headset produced_timestamp timestamp d offset n
    constructed (by intro _; rw [hproduced]; exact le_of_lt hT)
  rw [hproduced, ht] at hfresh
  simp only [get_at]
  rw [hfresh, get_at_value_single_after interpolate toFloat fdiv ⟨d, T, T⟩ n T
    (ne_of_gt hT) (lt_irrefl T)]
  have hmax : max 0 (T - max 0 T) = 0 := by
    rw [max_eq_right (le_of_lt hT), sub_self, max_self]
  simp only [hmax]

/-- Witness of `round_trip_positive`: `T = 5`, payload 7, ten slots. -/
theorem round_trip_positive_witness :
    (get_at interpolate_nearest toFloat_exact fdiv_exact 0 5
      (add_sample from_headset_unit_drift 6 6 7 offset_one (history.init 10 0)).2).2 =
      (0, 7) :=
  round_trip_positive from_headset_unit_drift interpolate_nearest toFloat_exact fdiv_exact 10 0 0
    6 6 7 offset_one 5 (by decide) (by decide) (by decide) (by decide)

/-- C3, counterexample at `T = 0`, the case of the specification. The only sample, payload 7,
has the converted time stamps `at = produced = 0`; `get_at(999999999)` skips its slot, whose
`at_timestamp_ns` is zero, and returns the `no data` pair, not the payload 7. -/
theorem extrapolation_boundary_fails_at_zero :
    (add_sample from_headset_unit_drift 1 1 7 offset_one (history.init 10 0)).2.data[0]? =
      some ⟨7, 0, 0⟩ ∧
    (get_at interpolate_nearest toFloat_exact fdiv_exact 0 999999999
      (add_sample from_headset_unit_drift 1 1 7 offset_one (history.init 10 0)).2).2 =
      no_data ∧
    (get_at interpolate_nearest toFloat_exact fdiv_exact 0 999999999
      (add_sample from_headset_unit_drift 1 1 7 offset_one (history.init 10 0)).2).2.2 ≠ 7 := by
  decide

/-- C3, amended. For every `T` other than zero (and positive when the offset is calibrated),
if the only sample of a buffer with at least one slot was inserted by `add_sample` with the
converted time stamps `at = produced = T`, then `get_at(T + 999999999)` returns the payload of
that sample, with the duration 999999999 when `T` is positive, and emits the warning, and
`get_at(T + 1000000001)` returns the `no data` pair. -/
theorem extrapolation_boundary {Data Double F : Type} [Inhabited Data]
    (from_headset : clock_offset Double → Nat → Int) (interpolate : Data → Data → F → Data)
    (toFloat : Int → F) (fdiv : F → F → F) (MaxSamples : Nat) (constructed now : Int)
    (produced_timestamp timestamp : Int) (d : Data) (offset : clock_offset Double) (T : Int)
    (hN : 0 < MaxSamples) (hT : T ≠ 0) (hcal : offset.b ≠ 0 → 0 < T)
    (hproduced : from_headset offset (toUInt64 produced_timestamp) = T)
    (ht : from_headset offset (toUInt64 timestamp) = T) :
    (get_at interpolate toFloat fdiv now (T + 999999999)
      (add_sample from_headset produced_timestamp timestamp d offset
        (history.init MaxSamples constructed)).2).2.2 = d ∧
    (0 < T →
      (get_at interpolate toFloat fdiv now (T + 999999999)
        (add_sample from_headset produced_timestamp timestamp d offset
          (history.init MaxSamples constructed)).2).2 = (999999999, d)) ∧
    get_at_warns (add_sample from_headset produced_timestamp timestamp d offset
      (history.init MaxSamples constructed)).2.data (T + 999999999) = true ∧
    (get_at interpolate toFloat fdiv now (T + 1000000001)
      (add_sample from_headset produced_timestamp timestamp d offset
        (history.init MaxSamples constructed)).2).2 = no_data := by
  obtain ⟨n, rfl⟩ : ∃ n, MaxSamples = n + 1 := ⟨MaxSamples - 1, by omega⟩
  have hfresh := add_sample_fresh from_headset produced_timestamp timestamp d offset n
    constructed (by intro hb; rw [hproduced]; exact le_of_lt (hcal hb))
  rw [hproduced, ht] at hfresh
  have hlt1 : (⟨d, T, T⟩ : TimedData Data).at_timestamp_ns < T + 999999999 := by
    show T < T + 999999999
    omega
  have hlt2 : (⟨d, T, T⟩ : TimedData Data).at_timestamp_ns < T + 1000000001 := by
    show T < T + 1000000001
    omega
  have h1 : ¬ T + 999999999 > T + U_TIME_1S_IN_NS := by
    simp only [U_TIME_1S_IN_NS]; omega
  have h2 : T + 1000000001 > T + U_TIME_1S_IN_NS := by
    simp only [U_TIME_1S_IN_NS]; omega
  have h3 : T + 999999999 > T + U_TIME_1MS_IN_NS := by
    simp only [U_TIME_1MS_IN_NS]; omega
  have hv1 := get_at_value_single_before interpolate toFloat fdiv ⟨d, T, T⟩ n
    (T + 999999999) hT hlt1
  have hv2 := get_at_value_single_before interpolate toFloat fdiv ⟨d, T, T⟩ n
    (T + 1000000001) hT hlt2
  simp only [if_neg h1] at hv1
  simp only [if_pos h2] at hv2
  simp only [get_at]
  rw [hfresh, hv1, hv2]
  refine ⟨rfl, ?_, ?_, rfl⟩
  · intro hpos
    have hmax : max 0 (T + 999999999 - max 0 T) = 999999999 := by
      rw [max_eq_right (le_of_lt hpos)]
      have : T + 999999999 - T = 999999999 := by omega
      rw [this]
      rfl
    rw [hmax]
  · simp only [get_at_warns, get_at_scan_cons_before _ _ _ hT hlt1, get_at_scan_replicate,
      decide_eq_true h3, decide_eq_false h1, Bool.not_false, Bool.and_self]

/-- Witness of `extrapolation_boundary`: `T = 5`, payload 7, ten slots, calibrated offset. -/
theorem extrapolation_boundary_witness :
    (get_at interpolate_nearest toFloat_exact fdiv_exact 0 (5 + 999999999)
      (add_sample from_headset_unit_drift 6 6 7 offset_one (history.init 10 0)).2).2.2 = 7 ∧
    (0 < (5 : Int) →
      (get_at interpolate_nearest toFloat_exact fdiv_exact 0 (5 + 999999999)
        (add_sample from_headset_unit_drift 6 6 7 offset_one (history.init 10 0)).2).2 =
        (999999999, 7)) ∧
    get_at_warns (add_sample from_headset_unit_drift 6 6 7 offset_one
      (history.init 10 0)).2.data (5 + 999999999) = true ∧
    (get_at interpolate_nearest toFloat_exact fdiv_exact 0 (5 + 1000000001)
      (add_sample from_headset_unit_drift 6 6 7 offset_one (history.init 10 0)).2).2 =
      no_data :=
  extrapolation_boundary from_headset_unit_drift interpolate_nearest toFloat_exact fdiv_exact 10 0 0
    6 6 7 offset_one 5 (by decide) (by decide) (by decide) (by decide) (by decide)

/-! ## Lemmas on a buffer holding two samples -/

/-- A calibrated call whose `t` is within 2 ms of the first slot, and which is not produced
before it, targets the first slot. -/
theorem add_sample_target_near {Data : Type} (produced t : Int) (first : TimedData Data)
    (rest : List (TimedData Data)) (hle : first.produced_timestamp ≤ produced)
    (hnear : abs64 (first.at_timestamp_ns - t) < 2000000) :
    add_sample_target true produced t (first :: rest) = some 0 := by
  have h1 : ¬ first.produced_timestamp > produced := not_lt.mpr hle
  simp only [add_sample_target, add_sample_scan, if_true, if_neg h1, if_pos hnear]

/-- A calibrated call on a buffer whose first slot only is occupied, with a `t` at least 2 ms
away from that slot and from zero, targets the second slot when the first slot lies after the
epoch. -/
theorem add_sample_target_far {Data : Type} [Inhabited Data] (produced t : Int)
    (first : TimedData Data) (n : Nat) (hle : first.produced_timestamp ≤ produced)
    (hp : 0 ≤ produced) (hpos : 0 < first.at_timestamp_ns)
    (hfar : ¬ abs64 (first.at_timestamp_ns - t) < 2000000)
    (hfar0 : ¬ abs64 (0 - t) < 2000000) :
    add_sample_target true produced t (first :: List.replicate (n + 1) default) = some 1 := by
  have h1 : ¬ first.produced_timestamp > produced := not_lt.mpr hle
  have h2 : ¬ first.at_timestamp_ns < first.at_timestamp_ns := lt_irrefl _
  have h3 : ¬ (default : TimedData Data).produced_timestamp > produced := not_lt.mpr hp
  have h4 : ¬ abs64 ((default : TimedData Data).at_timestamp_ns - t) < 2000000 := hfar0
  have h5 : (default : TimedData Data).at_timestamp_ns < first.at_timestamp_ns := hpos
  have h6 : (default : TimedData Data).at_timestamp_ns = 0 := rfl
  simp only [add_sample_target, add_sample_scan, if_true, if_neg h1, if_neg hfar, if_neg h2,
    List.replicate_succ, if_neg h3, if_neg h4, if_pos h5, h6, if_neg hfar0, if_pos hpos]
  exact @add_sample_scan_replicate_far Data _ produced t hp hfar0 n (0 + 1 + 1) (0 + 1)

/-- Value initialised slots are not occupied. -/
theorem occupied_replicate {Data : Type} [Inhabited Data] :
    ∀ n : Nat, occupied (List.replicate n (default : TimedData Data)) = 0
  | 0 => rfl
  | n + 1 => by
    have ih := @occupied_replicate Data _ n
    unfold occupied at ih ⊢
    rw [List.replicate_succ, List.countP_cons_of_neg, ih]
    simp only [ne_eq, decide_not, Bool.not_eq_true', decide_eq_false_iff_not, not_not]
    rfl

/-- The value of `get_at` when two slots are occupied, the first before the query and the
second not. -/
theorem get_at_value_pair {Data F : Type} [Inhabited Data]
    (interpolate : Data → Data → F → Data) (toFloat : Int → F) (fdiv : F → F → F)
    (b a : TimedData Data) (n : Nat) (q : Int) (hb0 : b.at_timestamp_ns ≠ 0)
    (hb : b.at_timestamp_ns < q) (ha0 : a.at_timestamp_ns ≠ 0) (ha : ¬ a.at_timestamp_ns < q) :
    get_at_value interpolate toFloat fdiv (b :: a :: List.replicate n default) q =
      (max 0 (q - max (max 0 a.produced_timestamp) b.produced_timestamp),
        interpolate b.data a.data
          (fdiv (toFloat (a.at_timestamp_ns - q))
            (toFloat (a.at_timestamp_ns - b.at_timestamp_ns)))) := by
  have hscan : get_at_scan q (b :: a :: List.replicate n default) none none =
      (some b, some a) := by
    rw [get_at_scan_cons_before q b _ hb0 hb]
    simp only [get_at_scan, if_neg ha0, if_neg ha, get_at_scan_replicate]
  simp only [get_at_value, hscan, get_at_produced]

/-- The value of `get_at` along its three `return {ex, ...}` statements: the duration is
`max(0, at_timestamp_ns - produced)`. -/
theorem get_at_value_duration {Data F : Type} [Inhabited Data]
    (interpolate : Data → Data → F → Data) (toFloat : Int → F) (fdiv : F → F → F)
    (data : List (TimedData Data)) (q : Int) (hdata : get_at_returns_data data q = true) :
    (get_at_value interpolate toFloat fdiv data q).1 =
      max 0 (q - get_at_produced (get_at_scan q data none none).1
        (get_at_scan q data none none).2) := by
  unfold get_at_returns_data at hdata
  unfold get_at_value
  generalize get_at_scan q data none none = s at hdata ⊢
  rcases s with ⟨_ | b, _ | a⟩
  · simp at hdata
  · rfl
  · simp only [Bool.not_eq_true', decide_eq_false_iff_not] at hdata
    simp only [if_neg hdata]
  · rfl

/-- The slots after a call, in terms of the converted time stamps and of the target slot. -/
theorem add_sample_data_converted {Data Double : Type}
    (from_headset : clock_offset Double → Nat → Int) (produced_timestamp timestamp : Int)
    (sample : Data) (offset : clock_offset Double) (h : history Data) (produced t : Int)
    (i : Nat) (hproduced : from_headset offset (toUInt64 produced_timestamp) = produced)
    (ht : from_headset offset (toUInt64 timestamp) = t)
    (hi : add_sample_target offset.toBool produced t h.data = some i) :
    (add_sample from_headset produced_timestamp timestamp sample offset h).2.data =
      h.data.set i ⟨sample, produced, t⟩ := by
  subst hproduced ht
  exact add_sample_data_of_target from_headset produced_timestamp timestamp sample offset h i hi

/-- The slots after the first call on a fresh buffer, in terms of the converted time stamps. -/
theorem add_sample_fresh_converted {Data Double : Type} [Inhabited Data]
    (from_headset : clock_offset Double → Nat → Int) (produced_timestamp timestamp : Int)
    (sample : Data) (offset : clock_offset Double) (n : Nat) (now : Int) (produced t : Int)
    (hproduced : from_headset offset (toUInt64 produced_timestamp) = produced)
    (ht : from_headset offset (toUInt64 timestamp) = t) (hp : 0 ≤ produced) :
    (add_sample from_headset produced_timestamp timestamp sample offset
      (history.init (n + 1) now)).2.data =
      ⟨sample, produced, t⟩ :: List.replicate n default := by
  subst hproduced ht
  exact add_sample_fresh from_headset produced_timestamp timestamp sample offset n now
    (fun _ => hp)

/-! ## Interpolation between two samples -/

/-- C4, counterexample. Into a fresh buffer of ten slots the payload 10 for the instant 100 and
then the payload 20 for the instant 200 are inserted (calibrated offset, `produced` 1 and 2).
The second instant is within 2 ms of the first, so the second sample replaces the first in
slot 0, and `get_at(150)` returns the payload 20 of the second sample, not the interpolation of
the two payloads at `t = 50 / 100`, which is 15 for the linear interpolation. -/
theorem midpoint_of_100_200_is_second_sample :
    (get_at interpolate_lerp toFloat_exact fdiv_exact 0 150
      (add_samples from_headset_unit_drift midpoint_calls (history.init 10 0))).2 =
      (148, 20) ∧
    interpolate_lerp 10 20
      (fdiv_exact (toFloat_exact (200 - 150)) (toFloat_exact (200 - 100))) = 15 ∧
    (get_at interpolate_lerp toFloat_exact fdiv_exact 0 150
      (add_samples from_headset_unit_drift midpoint_calls (history.init 10 0))).2.2 ≠
      interpolate_lerp 10 20
        (fdiv_exact (toFloat_exact (200 - 150)) (toFloat_exact (200 - 100))) := by
  have hvalue : (get_at interpolate_lerp toFloat_exact fdiv_exact 0 150
      (add_samples from_headset_unit_drift midpoint_calls (history.init 10 0))).2 =
      (148, 20) := by decide
  have hlerp : interpolate_lerp 10 20
      (fdiv_exact (toFloat_exact (200 - 150)) (toFloat_exact (200 - 100))) = 15 := by
    simp only [interpolate_lerp, fdiv_exact, toFloat_exact]
    norm_num
  refine ⟨hvalue, hlerp, ?_⟩
  rw [hvalue, hlerp]
  norm_num

/-- C4, amended. Two samples are inserted with `add_sample` into a fresh buffer with at least
two slots, the second with a calibrated offset, with non-negative, non-decreasing converted
`produced` time stamps. If their converted `at` time stamps are 100 and 200, the second sample
replaces the first (2 ms window) and `get_at(150)` returns the payload of the second sample as
it is. If they are 100000000 and 200000000 (100 ms and 200 ms), `get_at(150000000)` returns
`interpolate(first, second, t)` for `t = float(50000000) / float(100000000)`, which is one half
in every arithmetic that divides these two values exactly. -/
theorem midpoint_interpolation_beyond_window {Data Double F : Type} [Inhabited Data]
    (from_headset : clock_offset Double → Nat → Int) (interpolate : Data → Data → F → Data)
    (toFloat : Int → F) (fdiv : F → F → F) (MaxSamples : Nat) (constructed now : Int)
    (produced_timestamp1 produced_timestamp2 ts100 ts200 ts100ms ts200ms : Int)
    (first second : Data) (offset1 offset2 : clock_offset Double) (p1 p2 : Int) (half : F)
    (hN : 2 ≤ MaxSamples) (hcal : offset2.b ≠ 0)
    (hp1 : from_headset offset1 (toUInt64 produced_timestamp1) = p1)
    (hp2 : from_headset offset2 (toUInt64 produced_timestamp2) = p2)
    (hnonneg : 0 ≤ p1) (hmono : p1 ≤ p2)
    (h100 : from_headset offset1 (toUInt64 ts100) = 100)
    (h200 : from_headset offset2 (toUInt64 ts200) = 200)
    (h100ms : from_headset offset1 (toUInt64 ts100ms) = 100000000)
    (h200ms : from_headset offset2 (toUInt64 ts200ms) = 200000000)
    (hhalf : fdiv (toFloat 50000000) (toFloat 100000000) = half) :
    (get_at interpolate toFloat fdiv now 150
      (add_sample from_headset produced_timestamp2 ts200 second offset2
        (add_sample from_headset produced_timestamp1 ts100 first offset1
          (history.init MaxSamples constructed)).2).2).2 = (max 0 (150 - p2), second) ∧
    (get_at interpolate toFloat fdiv now 150000000
      (add_sample from_headset produced_timestamp2 ts200ms second offset2
        (add_sample from_headset produced_timestamp1 ts100ms first offset1
          (history.init MaxSamples constructed)).2).2).2 =
      (max 0 (150000000 - p2), interpolate first second half) := by
  obtain ⟨n, rfl⟩ : ∃ n, MaxSamples = n + 1 + 1 := ⟨MaxSamples - 2, by omega⟩
  have hb : offset2.toBool = true := by simp [clock_offset.toBool, hcal]
  have hp2nonneg : 0 ≤ p2 := le_trans hnonneg hmono
  have hmax : max (max 0 p2) p1 = p2 := by
    rw [max_eq_right hp2nonneg, max_eq_left hmono]
  constructor
  · have hfresh := add_sample_fresh_converted from_headset produced_timestamp1 ts100 first
      offset1 (n + 1) constructed p1 100 hp1 h100 hnonneg
    have htarget : add_sample_target offset2.toBool p2 200
        (add_sample from_headset produced_timestamp1 ts100 first offset1
          (history.init (n + 1 + 1) constructed)).2.data = some 0 := by
      rw [hfresh, hb]
      have hnear : abs64 ((100 : Int) - 200) < 2000000 := by decide
      exact add_sample_target_near p2 200 ⟨first, p1, 100⟩ _ hmono hnear
    have hdata := add_sample_data_converted from_headset produced_timestamp2 ts200 second
      offset2 _ p2 200 0 hp2 h200 htarget
    have ha0 : (200 : Int) ≠ 0 := by decide
    have ha : ¬ (200 : Int) < 150 := by decide
    simp only [get_at]
    rw [hdata, hfresh, List.set_cons_zero,
      get_at_value_single_after interpolate toFloat fdiv ⟨second, p2, 200⟩ (n + 1) 150
        ha0 ha]
    simp only [max_eq_right hp2nonneg]
  · have hfresh := add_sample_fresh_converted from_headset produced_timestamp1 ts100ms first
      offset1 (n + 1) constructed p1 100000000 hp1 h100ms hnonneg
    have htarget : add_sample_target offset2.toBool p2 200000000
        (add_sample from_headset produced_timestamp1 ts100ms first offset1
          (history.init (n + 1 + 1) constructed)).2.data = some 1 := by
      rw [hfresh, hb]
      have hpos : (0 : Int) < 100000000 := by decide
      have hfar : ¬ abs64 ((100000000 : Int) - 200000000) < 2000000 := by decide
      have hfar0 : ¬ abs64 ((0 : Int) - 200000000) < 2000000 := by decide
      exact add_sample_target_far p2 200000000 ⟨first, p1, 100000000⟩ n hmono hp2nonneg
        hpos hfar hfar0
    have hdata := add_sample_data_converted from_headset produced_timestamp2 ts200ms second
      offset2 _ p2 200000000 1 hp2 h200ms htarget
    have hb0 : (100000000 : Int) ≠ 0 := by decide
    have hbq : (100000000 : Int) < 150000000 := by decide
    have ha0 : (200000000 : Int) ≠ 0 := by decide
    have haq : ¬ (200000000 : Int) < 150000000 := by decide
    simp only [get_at]
    rw [hdata, hfresh, List.replicate_succ, List.set_cons_succ, List.set_cons_zero,
      get_at_value_pair interpolate toFloat fdiv ⟨first, p1, 100000000⟩
        ⟨second, p2, 200000000⟩ n 150000000 hb0 hbq ha0 haq]
    simp only [hmax]
    have e1 : (200000000 : Int) - 150000000 = 50000000 := by decide
    have e2 : (200000000 : Int) - 100000000 = 100000000 := by decide
    rw [e1, e2, hhalf]

/-- Witness of `midpoint_interpolation_beyond_window`: the payloads 10 and 20 with the linear
interpolation in exact rational arithmetic, ten slots. -/
theorem midpoint_interpolation_beyond_window_witness :
    (get_at interpolate_lerp toFloat_exact fdiv_exact 0 150
      (add_sample from_headset_unit_drift 3 201 20 offset_one
        (add_sample from_headset_unit_drift 2 101 10 offset_one
          (history.init 10 0)).2).2).2 = (max 0 (150 - 2), 20) ∧
    (get_at interpolate_lerp toFloat_exact fdiv_exact 0 150000000
      (add_sample from_headset_unit_drift 3 200000001 20 offset_one
        (add_sample from_headset_unit_drift 2 100000001 10 offset_one
          (history.init 10 0)).2).2).2 =
      (max 0 (150000000 - 2), interpolate_lerp 10 20 (1 / 2)) :=
  midpoint_interpolation_beyond_window from_headset_unit_drift interpolate_lerp toFloat_exact
    fdiv_exact 10 0 0 2 3 101 201 100000001 200000001 10 20 offset_one offset_one 1 2 (1 / 2)
    (by decide) (by decide) (by decide) (by decide) (by decide) (by decide) (by decide)
    (by decide) (by decide) (by decide)
    (by simp only [fdiv_exact, toFloat_exact]; norm_num)

/-! ## Coalescing -/

/-- A slot whose `at_timestamp_ns` is not zero counts as occupied. -/
theorem occupied_cons_of_ne {Data : Type} (item : TimedData Data)
    (items : List (TimedData Data)) (h0 : item.at_timestamp_ns ≠ 0) :
    occupied (item :: items) = occupied items + 1 := by
  unfold occupied
  rw [List.countP_cons_of_pos]
  exact decide_eq_true h0

/-- C5, counterexample at `T = 0`. On a fresh buffer of ten slots (calibrated offset, `produced`
1 then 2) a sample for the instant 0 and then a sample for the instant 3 ms are inserted. Both
calls target slot 0: no slot is older than slot 0, whose `at_timestamp_ns` is 0 like that of
the empty slots, so the second sample replaces the first, which is in no slot afterwards. -/
theorem coalescing_fails_at_zero :
    add_sample_target offset_one.toBool 1 0 (history.init 10 0 : history Nat).data = some 0 ∧
    add_sample_target offset_one.toBool 2 3000000
      (add_sample from_headset_unit_drift 2 1 1 offset_one (history.init 10 0)).2.data =
      some 0 ∧
    (⟨1, 1, 0⟩ : TimedData Nat) ∉
      (add_sample from_headset_unit_drift 3 3000001 2 offset_one
        (add_sample from_headset_unit_drift 2 1 1 offset_one (history.init 10 0)).2).2.data := by
  decide

/-- C5, amended. For every `T > 0`, starting from a fresh buffer with at least two slots and
inserting with non-negative, non-decreasing converted `produced` time stamps (the second call
with a calibrated offset): the first call, for the instant `T`, writes slot 0; a second call for
the instant `T + 1 ms` writes slot 0 as well and the number of occupied slots stays 1; a second
call for the instant `T + 3 ms` writes slot 1 instead, and afterwards slot 0 still holds the
first sample, slot 1 holds the second and two slots are occupied. -/
theorem coalescing_window {Data Double : Type} [Inhabited Data]
    (from_headset : clock_offset Double → Nat → Int) (MaxSamples : Nat) (constructed : Int)
    (produced_timestamp1 produced_timestamp2 ts tsNear tsFar : Int) (d1 d2 : Data)
    (offset1 offset2 : clock_offset Double) (p1 p2 T : Int)
    (hN : 2 ≤ MaxSamples) (hcal : offset2.b ≠ 0) (hT : 0 < T)
    (hp1 : from_headset offset1 (toUInt64 produced_timestamp1) = p1)
    (hp2 : from_headset offset2 (toUInt64 produced_timestamp2) = p2)
    (hnonneg : 0 ≤ p1) (hmono : p1 ≤ p2)
    (ht : from_headset offset1 (toUInt64 ts) = T)
    (htNear : from_headset offset2 (toUInt64 tsNear) = T + 1000000)
    (htFar : from_headset offset2 (toUInt64 tsFar) = T + 3000000) :
    add_sample_target offset1.toBool p1 T
      (history.init MaxSamples constructed : history Data).data = some 0 ∧
    occupied (add_sample from_headset produced_timestamp1 ts d1 offset1
      (history.init MaxSamples constructed)).2.data = 1 ∧
    add_sample_target offset2.toBool p2 (T + 1000000)
      (add_sample from_headset produced_timestamp1 ts d1 offset1
        (history.init MaxSamples constructed)).2.data = some 0 ∧
    occupied (add_sample from_headset produced_timestamp2 tsNear d2 offset2
      (add_sample from_headset produced_timestamp1 ts d1 offset1
        (history.init MaxSamples constructed)).2).2.data = 1 ∧
    add_sample_target offset2.toBool p2 (T + 3000000)
      (add_sample from_headset produced_timestamp1 ts d1 offset1
        (history.init MaxSamples constructed)).2.data = some 1 ∧
    (add_sample from_headset produced_timestamp2 tsFar d2 offset2
      (add_sample from_headset produced_timestamp1 ts d1 offset1
        (history.init MaxSamples constructed)).2).2.data[0]? = some ⟨d1, p1, T⟩ ∧
    (add_sample from_headset produced_timestamp2 tsFar d2 offset2
      (add_sample from_headset produced_timestamp1 ts d1 offset1
        (history.init MaxSamples constructed)).2).2.data[1]? =
      some ⟨d2, p2, T + 3000000⟩ ∧
    occupied (add_sample from_headset produced_timestamp2 tsFar d2 offset2
      (add_sample from_headset produced_timestamp1 ts d1 offset1
        (history.init MaxSamples constructed)).2).2.data = 2 := by
  obtain ⟨n, rfl⟩ : ∃ n, MaxSamples = n + 1 + 1 := ⟨MaxSamples - 2, by omega⟩
  have hb : offset2.toBool = true := by simp [clock_offset.toBool, hcal]
  have hp2nonneg : 0 ≤ p2 := le_trans hnonneg hmono
  have hfresh := add_sample_fresh_converted from_headset produced_timestamp1 ts d1
    offset1 (n + 1) constructed p1 T hp1 ht hnonneg
  have hfirst : add_sample_target offset1.toBool p1 T
      (history.init (n + 1 + 1) constructed : history Data).data = some 0 :=
    add_sample_target_fresh offset1.toBool p1 T (n + 1) (fun _ => hnonneg)
  have hnear : add_sample_target offset2.toBool p2 (T + 1000000)
      (add_sample from_headset produced_timestamp1 ts d1 offset1
        (history.init (n + 1 + 1) constructed)).2.data = some 0 := by
    rw [hfresh, hb]
    have hwin : abs64 (T - (T + 1000000)) < 2000000 := by
      unfold abs64
      split <;> omega
    exact add_sample_target_near p2 (T + 1000000) ⟨d1, p1, T⟩ _ hmono hwin
  have hfar : add_sample_target offset2.toBool p2 (T + 3000000)
      (add_sample from_headset produced_timestamp1 ts d1 offset1
        (history.init (n + 1 + 1) constructed)).2.data = some 1 := by
    rw [hfresh, hb]
    have hwin : ¬ abs64 (T - (T + 3000000)) < 2000000 := by
      unfold abs64
      split <;> omega
    have hwin0 : ¬ abs64 (0 - (T + 3000000)) < 2000000 := by
      unfold abs64
      split <;> omega
    exact add_sample_target_far p2 (T + 3000000) ⟨d1, p1, T⟩ n hmono hp2nonneg hT hwin hwin0
  have hdataNear := add_sample_data_converted from_headset produced_timestamp2 tsNear d2
    offset2 _ p2 (T + 1000000) 0 hp2 htNear hnear
  have hdataFar := add_sample_data_converted from_headset produced_timestamp2 tsFar d2
    offset2 _ p2 (T + 3000000) 1 hp2 htFar hfar
  have hT0 : T ≠ 0 := ne_of_gt hT
  have hT1 : T + 1000000 ≠ 0 := by omega
  have hT3 : T + 3000000 ≠ 0 := by omega
  refine ⟨hfirst, ?_, hnear, ?_, hfar, ?_, ?_, ?_⟩
  · rw [hfresh, occupied_cons_of_ne _ _ hT0, occupied_replicate]
  · rw [hdataNear, hfresh, List.set_cons_zero, occupied_cons_of_ne _ _ hT1,
      occupied_replicate]
  · rw [hdataFar, hfresh, List.replicate_succ, List.set_cons_succ, List.set_cons_zero,
      List.getElem?_cons_zero]
  · rw [hdataFar, hfresh, List.replicate_succ, List.set_cons_succ, List.set_cons_zero,
      List.getElem?_cons_succ, List.getElem?_cons_zero]
  · rw [hdataFar, hfresh, List.replicate_succ, List.set_cons_succ, List.set_cons_zero,
      occupied_cons_of_ne _ _ hT0, occupied_cons_of_ne _ _ hT3, occupied_replicate]

/-- Witness of `coalescing_window`: `T = 7`, ten slots, `produced` 1 then 2. -/
theorem coalescing_window_witness :
    add_sample_target offset_one.toBool 1 7 (history.init 10 0 : history Nat).data = some 0 ∧
    occupied (add_sample from_headset_unit_drift 2 8 1 offset_one
      (history.init 10 0)).2.data = 1 ∧
    add_sample_target offset_one.toBool 2 (7 + 1000000)
      (add_sample from_headset_unit_drift 2 8 1 offset_one (history.init 10 0)).2.data =
      some 0 ∧
    occupied (add_sample from_headset_unit_drift 3 1000008 2 offset_one
      (add_sample from_headset_unit_drift 2 8 1 offset_one (history.init 10 0)).2).2.data = 1 ∧
    add_sample_target offset_one.toBool 2 (7 + 3000000)
      (add_sample from_headset_unit_drift 2 8 1 offset_one (history.init 10 0)).2.data =
      some 1 ∧
    (add_sample from_headset_unit_drift 3 3000008 2 offset_one
      (add_sample from_headset_unit_drift 2 8 1 offset_one (history.init 10 0)).2).2.data[0]? =
      some ⟨1, 1, 7⟩ ∧
    (add_sample from_headset_unit_drift 3 3000008 2 offset_one
      (add_sample from_headset_unit_drift 2 8 1 offset_one (history.init 10 0)).2).2.data[1]? =
      some ⟨2, 2, 7 + 3000000⟩ ∧
    occupied (add_sample from_headset_unit_drift 3 3000008 2 offset_one
      (add_sample from_headset_unit_drift 2 8 1 offset_one (history.init 10 0)).2).2.data = 2 :=
  coalescing_window from_headset_unit_drift 10 0 2 3 8 1000008 3000008 1 2 offset_one
    offset_one 1 2 7 (by decide) (by decide) (by decide) (by decide) (by decide) (by decide)
    (by decide) (by decide) (by decide) (by decide)

/-! ## The `no data` result -/

/-- C8, counterexample. A buffer of ten slots holds one sample, with the value initialised
payload (0 for `Nat`) and the converted time stamps `at = produced = 5`. `get_at(5)` finds the
sample and returns its data through `return {ex, *after}`, and the pair it returns, duration 0
and payload 0, is the pair `return {}` produces for `no data`. -/
theorem no_data_equals_a_data_result :
    (add_sample from_headset_unit_drift 6 6 0 offset_one (history.init 10 0)).2.data[0]? =
      some ⟨0, 5, 5⟩ ∧
    get_at_returns_data
      (add_sample from_headset_unit_drift 6 6 0 offset_one (history.init 10 0)).2.data 5 =
      true ∧
    (get_at interpolate_nearest toFloat_exact fdiv_exact 0 5
      (add_sample from_headset_unit_drift 6 6 0 offset_one (history.init 10 0)).2).2 =
      no_data := by
  decide

/-! ## The scan of `get_at` against the reference definitions -/

/-- A slot that is unoccupied or does not lie before the query changes no `before`. -/
theorem reference_before_skip {Data : Type} (q : Int) (seen : List (TimedData Data))
    (item : TimedData Data) (b : Option (TimedData Data)) (hb : reference_before q seen b)
    (hskip : item.at_timestamp_ns = 0 ∨ ¬ item.at_timestamp_ns < q) :
    reference_before q (seen ++ [item]) b := by
  cases b with
  | none =>
    intro y hy hy0 hlt
    rcases List.mem_append.mp hy with hy | hy
    · exact hb y hy hy0 hlt
    · rw [List.mem_singleton.mp hy] at hy0 hlt
      rcases hskip with h | h
      · exact hy0 h
      · exact h hlt
  | some x =>
    obtain ⟨hx, hx0, hxq, hmax⟩ := hb
    refine ⟨List.mem_append.mpr (Or.inl hx), hx0, hxq, ?_⟩
    intro y hy hy0 hlt
    rcases List.mem_append.mp hy with hy | hy
    · exact hmax y hy hy0 hlt
    · rw [List.mem_singleton.mp hy] at hy0 hlt
      rcases hskip with h | h
      · exact absurd h hy0
      · exact absurd hlt h

/-- An occupied slot before the query that is later than the current `before` becomes the
`before`. -/
theorem reference_before_take {Data : Type} (q : Int) (seen : List (TimedData Data))
    (item : TimedData Data) (b : Option (TimedData Data)) (hb : reference_before q seen b)
    (h0 : item.at_timestamp_ns ≠ 0) (hlt : item.at_timestamp_ns < q)
    (hnew : ∀ x, b = some x → x.at_timestamp_ns < item.at_timestamp_ns) :
    reference_before q (seen ++ [item]) (some item) := by
  refine ⟨List.mem_append.mpr (Or.inr (List.mem_singleton.mpr rfl)), h0, hlt, ?_⟩
  intro y hy hy0 hyq
  rcases List.mem_append.mp hy with hy | hy
  · cases b with
    | none => exact absurd hyq (hb y hy hy0)
    | some x =>
      obtain ⟨_, _, _, hmax⟩ := hb
      exact le_trans (hmax y hy hy0 hyq) (le_of_lt (hnew x rfl))
  · rw [List.mem_singleton.mp hy]

/-- An occupied slot before the query that is not later than the current `before` changes
nothing. -/
theorem reference_before_keep {Data : Type} (q : Int) (seen : List (TimedData Data))
    (item x : TimedData Data) (hb : reference_before q seen (some x))
    (hle : ¬ x.at_timestamp_ns < item.at_timestamp_ns) :
    reference_before q (seen ++ [item]) (some x) := by
  obtain ⟨hx, hx0, hxq, hmax⟩ := hb
  refine ⟨List.mem_append.mpr (Or.inl hx), hx0, hxq, ?_⟩
  intro y hy hy0 hyq
  rcases List.mem_append.mp hy with hy | hy
  · exact hmax y hy hy0 hyq
  · rw [List.mem_singleton.mp hy]
    exact not_lt.mp hle

/-- A slot that is unoccupied or lies before the query changes no `after`. -/
theorem reference_after_skip {Data : Type} (q : Int) (seen : List (TimedData Data))
    (item : TimedData Data) (a : Option (TimedData Data)) (ha : reference_after q seen a)
    (hskip : item.at_timestamp_ns = 0 ∨ item.at_timestamp_ns < q) :
    reference_after q (seen ++ [item]) a := by
  cases a with
  | none =>
    intro y hy hy0
    rcases List.mem_append.mp hy with hy | hy
    · exact ha y hy hy0
    · rw [List.mem_singleton.mp hy] at hy0 ⊢
      rcases hskip with h | h
      · exact absurd h hy0
      · exact h
  | some x =>
    obtain ⟨hx, hx0, hxq, hmin⟩ := ha
    refine ⟨List.mem_append.mpr (Or.inl hx), hx0, hxq, ?_⟩
    intro y hy hy0 hge
    rcases List.mem_append.mp hy with hy | hy
    · exact hmin y hy hy0 hge
    · rw [List.mem_singleton.mp hy] at hy0 hge
      rcases hskip with h | h
      · exact absurd h hy0
      · exact absurd h hge

/-- An occupied slot not before the query that is earlier than the current `after` becomes the
`after`. -/
theorem reference_after_take {Data : Type} (q : Int) (seen : List (TimedData Data))
    (item : TimedData Data) (a : Option (TimedData Data)) (ha : reference_after q seen a)
    (h0 : item.at_timestamp_ns ≠ 0) (hge : ¬ item.at_timestamp_ns < q)
    (hnew : ∀ x, a = some x → x.at_timestamp_ns > item.at_timestamp_ns) :
    reference_after q (seen ++ [item]) (some item) := by
  refine ⟨List.mem_append.mpr (Or.inr (List.mem_singleton.mpr rfl)), h0, hge, ?_⟩
  intro y hy hy0 hyq
  rcases List.mem_append.mp hy with hy | hy
  · cases a with
    | none => exact absurd (ha y hy hy0) hyq
    | some x =>
      obtain ⟨_, _, _, hmin⟩ := ha
      exact le_trans (le_of_lt (hnew x rfl)) (hmin y hy hy0 hyq)
  · rw [List.mem_singleton.mp hy]

/-- An occupied slot not before the query that is not earlier than the current `after` changes
nothing. -/
theorem reference_after_keep {Data : Type} (q : Int) (seen : List (TimedData Data))
    (item x : TimedData Data) (ha : reference_after q seen (some x))
    (hle : ¬ x.at_timestamp_ns > item.at_timestamp_ns) :
    reference_after q (seen ++ [item]) (some x) := by
  obtain ⟨hx, hx0, hxq, hmin⟩ := ha
  refine ⟨List.mem_append.mpr (Or.inl hx), hx0, hxq, ?_⟩
  intro y hy hy0 hyq
  rcases List.mem_append.mp hy with hy | hy
  · exact hmin y hy hy0 hyq
  · rw [List.mem_singleton.mp hy]
    exact not_lt.mp hle

/-- The scan of `get_at` maintains the reference definitions: if `before` and `after` are the
reference slots of the slots already visited, the final pointers are the reference slots of
all slots. -/
theorem get_at_scan_reference {Data : Type} (q : Int) :
    ∀ (items seen : List (TimedData Data)) (b0 a0 : Option (TimedData Data)),
      reference_before q seen b0 → reference_after q seen a0 →
        reference_before q (seen ++ items) (get_at_scan q items b0 a0).1 ∧
        reference_after q (seen ++ items) (get_at_scan q items b0 a0).2
  | [], seen, b0, a0, hb, ha => by
    simp only [get_at_scan, List.append_nil]
    exact ⟨hb, ha⟩
  | item :: items, seen, b0, a0, hb, ha => by
    rw [List.append_cons]
    by_cases h0 : item.at_timestamp_ns = 0
    · simp only [get_at_scan, if_pos h0]
      exact get_at_scan_reference q items (seen ++ [item]) b0 a0
        (reference_before_skip q seen item b0 hb (Or.inl h0))
        (reference_after_skip q seen item a0 ha (Or.inl h0))
    · by_cases hlt : item.at_timestamp_ns < q
      · have ha2 := reference_after_skip q seen item a0 ha (Or.inr hlt)
        cases b0 with
        | none =>
          simp only [get_at_scan, if_neg h0, if_pos hlt]
          exact get_at_scan_reference q items (seen ++ [item]) (some item) a0
            (reference_before_take q seen item none hb h0 hlt (fun x hx => by cases hx)) ha2
        | some b =>
          by_cases hnew : b.at_timestamp_ns < item.at_timestamp_ns
          · simp only [get_at_scan, if_neg h0, if_pos hlt, if_pos hnew]
            exact get_at_scan_reference q items (seen ++ [item]) (some item) a0
              (reference_before_take q seen item (some b) hb h0 hlt
                (fun x hx => by cases hx; exact hnew)) ha2
          · simp only [get_at_scan, if_neg h0, if_pos hlt, if_neg hnew]
            exact get_at_scan_reference q items (seen ++ [item]) (some b) a0
              (reference_before_keep q seen item b hb hnew) ha2
      · have hb2 := reference_before_skip q seen item b0 hb (Or.inr hlt)
        cases a0 with
        | none =>
          simp only [get_at_scan, if_neg h0, if_neg hlt]
          exact get_at_scan_reference q items (seen ++ [item]) b0 (some item) hb2
            (reference_after_take q seen item none ha h0 hlt (fun x hx => by cases hx))
        | some a =>
          by_cases hnew : a.at_timestamp_ns > item.at_timestamp_ns
          · simp only [get_at_scan, if_neg h0, if_neg hlt, if_pos hnew]
            exact get_at_scan_reference q items (seen ++ [item]) b0 (some item) hb2
              (reference_after_take q seen item (some a) ha h0 hlt
                (fun x hx => by cases hx; exact hnew))
          · simp only [get_at_scan, if_neg h0, if_neg hlt, if_neg hnew]
            exact get_at_scan_reference q items (seen ++ [item]) b0 (some a) hb2
              (reference_after_keep q seen item a ha hnew)

/-- The local `produced` of `get_at` is the reference maximum, floored at its initial value 0. -/
theorem get_at_produced_reference {Data : Type} (before after : Option (TimedData Data))
    (p : Int) (hp : reference_produced before after = some p) :
    get_at_produced before after = max 0 p := by
  cases before with
  | none =>
    cases after with
    | none => simp [reference_produced] at hp
    | some a =>
      simp only [reference_produced, Option.some.injEq] at hp
      simp only [get_at_produced, hp]
  | some b =>
    cases after with
    | none =>
      simp only [reference_produced, Option.some.injEq] at hp
      simp only [get_at_produced, hp]
    | some a =>
      simp only [reference_produced, Option.some.injEq] at hp
      simp only [get_at_produced, ← hp]
      rw [max_assoc, max_comm a.produced_timestamp b.produced_timestamp]

/-- When `get_at` returns data, `before` or `after` exists. -/
theorem reference_produced_of_returns_data {Data : Type} (data : List (TimedData Data))
    (q : Int) (hdata : get_at_returns_data data q = true) :
    ∃ p, reference_produced (get_at_scan q data none none).1
      (get_at_scan q data none none).2 = some p := by
  unfold get_at_returns_data at hdata
  generalize get_at_scan q data none none = s at hdata ⊢
  rcases s with ⟨_ | b, _ | a⟩
  · simp at hdata
  · exact ⟨a.produced_timestamp, rfl⟩
  · exact ⟨b.produced_timestamp, rfl⟩
  · exact ⟨max b.produced_timestamp a.produced_timestamp, rfl⟩

/-- When `get_at` does not return data, it returns the `no data` pair. -/
theorem get_at_value_no_data {Data F : Type} [Inhabited Data]
    (interpolate : Data → Data → F → Data) (toFloat : Int → F) (fdiv : F → F → F)
    (data : List (TimedData Data)) (q : Int) (hdata : get_at_returns_data data q = false) :
    get_at_value interpolate toFloat fdiv data q = no_data := by
  unfold get_at_returns_data at hdata
  unfold get_at_value
  generalize get_at_scan q data none none = s at hdata ⊢
  rcases s with ⟨_ | b, _ | a⟩
  · rfl
  · simp at hdata
  · simp only [Bool.not_eq_false', decide_eq_true_eq] at hdata
    simp only [if_pos hdata]
  · simp at hdata

/-! ## Query reference definition -/

/-- C11, counterexample. An `add_sample` call with an offset that is not calibrated stores, in
slot 0 of a fresh buffer of ten slots, a sample with the converted `produced_timestamp` -5 for
the instant 10. For the query 20 that slot is `before`, nothing is `after`, and the maximum
`produced_timestamp` over the slots that exist is -5; `get_at(20)` returns the payload with the
duration 20, not `max(0, 20 - (-5)) = 25`, because its `produced` starts at 0. -/
theorem duration_floors_produced_at_zero :
    (add_sample from_headset_signed (-5) 10 7 offset_zero (history.init 10 0)).2.data[0]? =
      some ⟨7, -5, 10⟩ ∧
    reference_produced
      (get_at_scan 20 (add_sample from_headset_signed (-5) 10 7 offset_zero
        (history.init 10 0)).2.data none none).1
      (get_at_scan 20 (add_sample from_headset_signed (-5) 10 7 offset_zero
        (history.init 10 0)).2.data none none).2 = some (-5) ∧
    get_at_returns_data (add_sample from_headset_signed (-5) 10 7 offset_zero
      (history.init 10 0)).2.data 20 = true ∧
    (get_at interpolate_nearest toFloat_exact fdiv_exact 0 20
      (add_sample from_headset_signed (-5) 10 7 offset_zero (history.init 10 0)).2).2 =
      (20, 7) ∧
    (get_at interpolate_nearest toFloat_exact fdiv_exact 0 20
      (add_sample from_headset_signed (-5) 10 7 offset_zero (history.init 10 0)).2).2.1 ≠
      max 0 (20 - (-5)) := by
  decide

/-- C11, amended. For every state and query `q`, the scan of `get_at` ends with `before` the
occupied slot with the largest `at_timestamp_ns < q` and `after` the occupied slot with the
smallest `at_timestamp_ns >= q` (each absent exactly when there is no such slot). Whenever data
is returned, the duration is `max(0, q - max(0, p))`, `p` being the maximum
`produced_timestamp` over whichever of `before`/`after` exist; this is `max(0, q - p)` when `p`
is not negative. The returned duration is never negative. -/
theorem get_at_matches_reference {Data F : Type} [Inhabited Data]
    (interpolate : Data → Data → F → Data) (toFloat : Int → F) (fdiv : F → F → F)
    (now q : Int) (h : history Data) :
    reference_before q h.data (get_at_scan q h.data none none).1 ∧
    reference_after q h.data (get_at_scan q h.data none none).2 ∧
    (∀ p, get_at_returns_data h.data q = true →
      reference_produced (get_at_scan q h.data none none).1
        (get_at_scan q h.data none none).2 = some p →
      (get_at interpolate toFloat fdiv now q h).2.1 = max 0 (q - max 0 p)) ∧
    (∀ p, get_at_returns_data h.data q = true →
      reference_produced (get_at_scan q h.data none none).1
        (get_at_scan q h.data none none).2 = some p → 0 ≤ p →
      (get_at interpolate toFloat fdiv now q h).2.1 = max 0 (q - p)) ∧
    0 ≤ (get_at interpolate toFloat fdiv now q h).2.1 := by
  have hscan := get_at_scan_reference q h.data [] none none
    (fun y hy => absurd hy (List.not_mem_nil y)) (fun y hy => absurd hy (List.not_mem_nil y))
  rw [List.nil_append] at hscan
  have hfloor : ∀ p, get_at_returns_data h.data q = true →
      reference_produced (get_at_scan q h.data none none).1
        (get_at_scan q h.data none none).2 = some p →
      (get_at interpolate toFloat fdiv now q h).2.1 = max 0 (q - max 0 p) := by
    intro p hdata hp
    simp only [get_at]
    rw [get_at_value_duration interpolate toFloat fdiv h.data q hdata,
      get_at_produced_reference _ _ p hp]
  refine ⟨hscan.1, hscan.2, hfloor, ?_, ?_⟩
  · intro p hdata hp hp0
    rw [hfloor p hdata hp, max_eq_right hp0]
  · cases hdata : get_at_returns_data h.data q with
    | true =>
      simp only [get_at]
      rw [get_at_value_duration interpolate toFloat fdiv h.data q hdata]
      exact le_max_left _ _
    | false =>
      simp only [get_at]
      rw [get_at_value_no_data interpolate toFloat fdiv h.data q hdata]
      exact le_refl _

/-! ## The maximum `produced_timestamp` under calibrated insertions -/

/-- The scan of `add_sample` ends on the initial target or on a visited slot that passed the
reorder check. -/
theorem add_sample_scan_checked {Data : Type} (produced t : Int) :
    ∀ (items : List (TimedData Data)) (i target : Nat) (tat : Int) (j : Nat),
      add_sample_scan produced t items i target tat = some j →
        j = target ∨
        (i ≤ j ∧ ∃ x, items[j - i]? = some x ∧ x.produced_timestamp ≤ produced)
  | [], _, _, _, _, h => by
    simp only [add_sample_scan, Option.some.injEq] at h
    exact Or.inl h.symm
  | item :: items, i, target, tat, j, h => by
    simp only [add_sample_scan] at h
    split_ifs at h with h1 h2 h3
    · simp only [Option.some.injEq] at h
      right
      refine ⟨by omega, item, ?_, not_lt.mp h1⟩
      subst h
      simp
    · rcases add_sample_scan_checked produced t items (i + 1) i _ j h with r | ⟨hij, x, hx, hle⟩
      · right
        refine ⟨by omega, item, ?_, not_lt.mp h1⟩
        subst r
        simp
      · right
        refine ⟨by omega, x, ?_, hle⟩
        have hji : j - i = (j - (i + 1)) + 1 := by omega
        rw [hji, List.getElem?_cons_succ]
        exact hx
    · rcases add_sample_scan_checked produced t items (i + 1) target tat j h with
        r | ⟨hij, x, hx, hle⟩
      · exact Or.inl r
      · right
        refine ⟨by omega, x, ?_, hle⟩
        have hji : j - i = (j - (i + 1)) + 1 := by omega
        rw [hji, List.getElem?_cons_succ]
        exact hx

/-- The slot a calibrated call targets was not produced later than the incoming sample. -/
theorem add_sample_target_checked {Data : Type} (produced t : Int)
    (data : List (TimedData Data)) (i : Nat) (old : TimedData Data)
    (hi : add_sample_target true produced t data = some i) (hold : data[i]? = some old) :
    old.produced_timestamp ≤ produced := by
  cases data with
  | nil => simp at hold
  | cons first rest =>
    simp only [add_sample_target, if_true] at hi
    rcases add_sample_scan_checked produced t (first :: rest) 0 0 first.at_timestamp_ns i hi
      with r | ⟨_, x, hx, hle⟩
    · subst r
      simp only [List.getElem?_cons_zero, Option.some.injEq] at hold
      subst hold
      by_contra hgt
      simp only [add_sample_scan, if_pos (not_le.mp hgt)] at hi
      exact absurd hi (by simp)
    · simp only [Nat.sub_zero] at hx
      rw [hold] at hx
      simp only [Option.some.injEq] at hx
      rw [hx]
      exact hle

/-- Every slot is produced not later than the maximum. -/
theorem le_max_produced {Data : Type} :
    ∀ (data : List (TimedData Data)) (item : TimedData Data), item ∈ data →
      item.produced_timestamp ≤ max_produced data
  | [], _, h => absurd h (List.not_mem_nil _)
  | [x], item, h => by
    rw [List.mem_singleton.mp h]
    exact le_refl _
  | x :: y :: rest, item, h => by
    simp only [max_produced]
    rcases List.mem_cons.mp h with rfl | h
    · exact le_max_left _ _
    · exact le_trans (le_max_produced (y :: rest) item h) (le_max_right _ _)

/-- The maximum is the `produced_timestamp` of some slot. -/
theorem max_produced_mem {Data : Type} :
    ∀ (data : List (TimedData Data)), data ≠ [] →
      ∃ item ∈ data, item.produced_timestamp = max_produced data
  | [], h => absurd rfl h
  | [x], _ => ⟨x, List.mem_singleton.mpr rfl, rfl⟩
  | x :: y :: rest, _ => by
    obtain ⟨item, hmem, heq⟩ := max_produced_mem (y :: rest) (List.cons_ne_nil _ _)
    simp only [max_produced]
    rcases le_total x.produced_timestamp (max_produced (y :: rest)) with hle | hle
    · exact ⟨item, List.mem_cons_of_mem _ hmem, by rw [max_eq_right hle, heq]⟩
    · exact ⟨x, List.mem_cons_self _ _, by rw [max_eq_left hle]⟩

/-- A slot of the array is still in the array after a write, unless it is the slot written. -/
theorem mem_set_or_getElem {Data : Type} (new x : TimedData Data) :
    ∀ (data : List (TimedData Data)) (i : Nat), x ∈ data →
      x ∈ data.set i new ∨ data[i]? = some x
  | [], _, h => absurd h (List.not_mem_nil _)
  | y :: rest, 0, h => by
    rcases List.mem_cons.mp h with rfl | h
    · exact Or.inr (List.getElem?_cons_zero)
    · exact Or.inl (by rw [List.set_cons_zero]; exact List.mem_cons_of_mem _ h)
  | y :: rest, i + 1, h => by
    rw [List.set_cons_succ, List.getElem?_cons_succ]
    rcases List.mem_cons.mp h with rfl | h
    · exact Or.inl (List.mem_cons_self _ _)
    · rcases mem_set_or_getElem new x rest i h with r | r
      · exact Or.inl (List.mem_cons_of_mem _ r)
      · exact Or.inr r

/-- The sample written to an existing slot is in the array afterwards. -/
theorem mem_set_of_getElem {Data : Type} (new old : TimedData Data)
    (data : List (TimedData Data)) (i : Nat) (hold : data[i]? = some old) :
    new ∈ data.set i new := by
  have h : (data.set i new)[i]? = some new := by
    rw [List.getElem?_set_self', hold]
    rfl
  exact List.getElem?_mem h

/-- C12. For every state and every `add_sample` call with a calibrated offset: when the call
stores its sample, in slot `i`, the `produced_timestamp` slot `i` held before is not greater
than that of the new sample, which slot `i` holds afterwards; whether the call stores or
discards, the maximum `produced_timestamp` over all slots does not decrease; and `get_at`
leaves every slot as it is. -/
theorem calibrated_insert_keeps_max_produced {Data Double F : Type} [Inhabited Data]
    (from_headset : clock_offset Double → Nat → Int) (interpolate : Data → Data → F → Data)
    (toFloat : Int → F) (fdiv : F → F → F) (produced_timestamp timestamp : Int)
    (sample : Data) (offset : clock_offset Double) (h : history Data)
    (produced t now q : Int) (hcal : offset.b ≠ 0)
    (hproduced : from_headset offset (toUInt64 produced_timestamp) = produced)
    (ht : from_headset offset (toUInt64 timestamp) = t) :
    (∀ i old, add_sample_target offset.toBool produced t h.data = some i →
      h.data[i]? = some old →
        old.produced_timestamp ≤ produced ∧
        (add_sample from_headset produced_timestamp timestamp sample offset h).2.data[i]? =
          some ⟨sample, produced, t⟩) ∧
    max_produced h.data ≤
      max_produced (add_sample from_headset produced_timestamp timestamp sample offset h).2.data ∧
    (get_at interpolate toFloat fdiv now q h).1.data = h.data := by
  have hb : offset.toBool = true := by simp [clock_offset.toBool, hcal]
  have hchecked : ∀ i old, add_sample_target offset.toBool produced t h.data = some i →
      h.data[i]? = some old → old.produced_timestamp ≤ produced := by
    intro i old hi hold
    rw [hb] at hi
    exact add_sample_target_checked produced t h.data i old hi hold
  refine ⟨?_, ?_, rfl⟩
  · intro i old hi hold
    refine ⟨hchecked i old hi hold, ?_⟩
    rw [add_sample_data_converted from_headset produced_timestamp timestamp sample offset h
      produced t i hproduced ht hi, List.getElem?_set_self', hold]
    rfl
  · cases hT : add_sample_target offset.toBool produced t h.data with
    | none =>
      subst hproduced ht
      rw [add_sample_state_of_discarded from_headset produced_timestamp timestamp sample
        offset h hT]
    | some i =>
      rw [add_sample_data_converted from_headset produced_timestamp timestamp sample offset h
        produced t i hproduced ht hT]
      by_cases hne : h.data = []
      · rw [hne]
        exact le_refl _
      · obtain ⟨m, hm, heq⟩ := max_produced_mem h.data hne
        rw [← heq]
        rcases mem_set_or_getElem ⟨sample, produced, t⟩ m h.data i hm with r | r
        · exact le_max_produced _ m r
        · exact le_trans (hchecked i m hT r)
            (le_max_produced _ ⟨sample, produced, t⟩ (mem_set_of_getElem _ m h.data i r))

/-- Witness of `calibrated_insert_keeps_max_produced`: a sample produced at 40 for the instant
30 ms inserted into `three_slots`, whose slots were produced at 10, 20 and 30. -/
theorem calibrated_insert_keeps_max_produced_witness :
    (∀ i old, add_sample_target offset_one.toBool 40 30000000 three_slots.data = some i →
      three_slots.data[i]? = some old →
        old.produced_timestamp ≤ 40 ∧
        (add_sample from_headset_unit_drift 41 30000001 4 offset_one three_slots).2.data[i]? =
          some ⟨4, 40, 30000000⟩) ∧
    max_produced three_slots.data ≤
      max_produced (add_sample from_headset_unit_drift 41 30000001 4 offset_one
        three_slots).2.data ∧
    (get_at interpolate_nearest toFloat_exact fdiv_exact 0 7000000 three_slots).1.data =
      three_slots.data :=
  calibrated_insert_keeps_max_produced from_headset_unit_drift interpolate_nearest
    toFloat_exact fdiv_exact 41 30000001 4 offset_one three_slots 40 30000000 0 7000000
    (by decide) (by decide) (by decide)

/-! ## When a data result differs from the `no data` result -/

/-- C8, amended. `no data` is the value initialised pair (duration 0, payload `Data{}`), not a
variant of its own. For every state and query for which `get_at` returns the data of a stored
or interpolated sample, `before` or `after` exists; with `p` the maximum `produced_timestamp`
over whichever of them exist, the returned duration is `max(0, at_timestamp_ns - max(0, p))`,
and the returned pair differs from the `no data` pair if and only if the query is later than
`max(0, p)` (the duration is positive) or the returned payload is not `Data{}`. -/
theorem get_at_data_differs_iff {Data F : Type} [Inhabited Data]
    (interpolate : Data → Data → F → Data) (toFloat : Int → F) (fdiv : F → F → F)
    (now at_timestamp_ns : Int) (h : history Data)
    (hdata : get_at_returns_data h.data at_timestamp_ns = true) :
    ∃ p, reference_produced (get_at_scan at_timestamp_ns h.data none none).1
        (get_at_scan at_timestamp_ns h.data none none).2 = some p ∧
      (get_at interpolate toFloat fdiv now at_timestamp_ns h).2.1 =
        max 0 (at_timestamp_ns - max 0 p) ∧
      ((get_at interpolate toFloat fdiv now at_timestamp_ns h).2 ≠ no_data ↔
        (max 0 p < at_timestamp_ns ∨
          (get_at interpolate toFloat fdiv now at_timestamp_ns h).2.2 ≠ default)) := by
  obtain ⟨p, hp⟩ := reference_produced_of_returns_data h.data at_timestamp_ns hdata
  have hval : (get_at interpolate toFloat fdiv now at_timestamp_ns h).2.1 =
      max 0 (at_timestamp_ns - max 0 p) := by
    simp only [get_at]
    rw [get_at_value_duration interpolate toFloat fdiv h.data at_timestamp_ns hdata,
      get_at_produced_reference _ _ p hp]
  refine ⟨p, hp, hval, ?_⟩
  generalize (get_at interpolate toFloat fdiv now at_timestamp_ns h).2 = r at hval ⊢
  obtain ⟨d, x⟩ := r
  simp only at hval
  constructor
  · intro hne
    by_contra hcon
    rw [not_or, not_lt, not_not] at hcon
    obtain ⟨hle, hx⟩ := hcon
    apply hne
    have hd : d = 0 := by
      rw [hval]
      exact max_eq_left (by omega)
    simp only at hx
    rw [hd, hx]
    rfl
  · rintro (hlt | hx) hno
    · have hd : d = at_timestamp_ns - max 0 p := by
        rw [hval]
        exact max_eq_right (by omega)
      have h0 : d = 0 := congrArg Prod.fst hno
      omega
    · exact hx (congrArg Prod.snd hno)

/-- Witness of `get_at_data_differs_iff`: the query 7 ms between the second and the first slot
of `three_slots`, produced at 20 and 10. -/
theorem get_at_data_differs_iff_witness :
    ∃ p, reference_produced (get_at_scan 7000000 three_slots.data none none).1
        (get_at_scan 7000000 three_slots.data none none).2 = some p ∧
      (get_at interpolate_nearest toFloat_exact fdiv_exact 0 7000000 three_slots).2.1 =
        max 0 (7000000 - max 0 p) ∧
      ((get_at interpolate_nearest toFloat_exact fdiv_exact 0 7000000 three_slots).2 ≠
          no_data ↔
        (max 0 p < 7000000 ∨
          (get_at interpolate_nearest toFloat_exact fdiv_exact 0 7000000 three_slots).2.2 ≠
            default)) :=
  get_at_data_differs_iff interpolate_nearest toFloat_exact fdiv_exact 0 7000000 three_slots
    (by decide)

end wivrn
